import Mathlib

/-!
Verification of the appointment-checkout core of the `business_agent` service
store (`store.py`): the checkout data model, slot management, totals
recalculation, payment gating and order finalization, shallowly embedded as
pure Lean functions over explicit state.

Modelling conventions:
* Python `dict[str, T]` becomes an association list with Python's
  update-in-place / append-on-new-key semantics.
* `uuid4` identifiers are drawn from a counter threaded through the
  operations (`gen_id`).
* `datetime` values are opaque integers (only copied and compared).
* Exceptions become `Except String`; a raising path that has already mutated
  state returns the mutated state alongside the error where the source does so.
* The Square client is an oracle record of pure functions; a `none` result of
  an oracle field models the corresponding call raising an exception.
* Python floats are modelled exactly: a binary64 value is the rational it
  denotes, and `fl64` is IEEE round-to-nearest-even at 53 significant bits
  (normal range only, which covers all values arising here).
-/

/-! ### Exact model of the Python float arithmetic used by the store

Rationals are represented as unnormalized fractions with positive
denominator (`Q`), so that every arithmetic step is plain integer
arithmetic the kernel can evaluate. -/

/-- An exact rational `num / den` with `den > 0` by construction (the
operations below preserve it); fractions are never normalized. -/
structure Q where
  num : Int
  den : Int
deriving Repr, DecidableEq

/-- The rational an integer denotes. -/
def Q.ofInt (n : Int) : Q := ⟨n, 1⟩

/-- Exact product. -/
def Q.mul (a b : Q) : Q := ⟨a.num * b.num, a.den * b.den⟩

/-- Exact quotient (the divisor is nonzero at every use site); the sign is
pushed into the numerator to keep the denominator positive. -/
def Q.div (a b : Q) : Q :=
  let n := a.num * b.den
  let d := a.den * b.num
  if d < 0 then ⟨-n, -d⟩ else ⟨n, d⟩

/-- Exact difference. -/
def Q.sub (a b : Q) : Q := ⟨a.num * b.den - b.num * a.den, a.den * b.den⟩

/-- Value comparison (cross multiplication; denominators positive). -/
def Q.lt (a b : Q) : Bool := a.num * b.den < b.num * a.den

/-- Floor of the value. -/
def Q.floor (a : Q) : Int := a.num.fdiv a.den

/-- Negation. -/
def Q.neg (a : Q) : Q := ⟨-a.num, a.den⟩

/-- Absolute value. -/
def Q.qabs (a : Q) : Q := ⟨if a.num < 0 then -a.num else a.num, a.den⟩

/-- `2 ^ k` as an exact rational. -/
def pow2 (k : Int) : Q :=
  if 0 ≤ k then ⟨(2 : Int) ^ k.toNat, 1⟩ else ⟨1, (2 : Int) ^ (-k).toNat⟩

/-- Round to the nearest integer, ties to even — the rounding of Python's
built-in `round` on floats. -/
def roundHalfEven (q : Q) : Int :=
  let f := q.floor
  let r := q.sub (Q.ofInt f)
  if r.lt ⟨1, 2⟩ then f
  else if Q.lt ⟨1, 2⟩ r then f + 1
  else if f % 2 = 0 then f else f + 1

/-- Binary logarithm of a positive rational (the unique `e` with
`2 ^ e ≤ q < 2 ^ (e + 1)`), by fuelled halving/doubling; the fuel below
covers the whole binary64 exponent range. -/
def log2_fuel : Nat → Q → Int
  | 0, _ => 0
  | fuel + 1, q =>
    if q.lt (Q.ofInt 1) then log2_fuel fuel (q.mul (Q.ofInt 2)) - 1
    else if q.lt (Q.ofInt 2) then 0
    else log2_fuel fuel (q.div (Q.ofInt 2)) + 1

/-- Round a rational to binary64 (round to nearest, ties to even, 53-bit
significand; normal range — no subnormals or overflow arise in this code). -/
def fl64 (q : Q) : Q :=
  if q.num == 0 then Q.ofInt 0
  else
    let a := q.qabs
    let ulp := pow2 (log2_fuel 1100 a - 52)
    let r := (Q.ofInt (roundHalfEven (a.div ulp))).mul ulp
    if q.num < 0 then r.neg else r

/-- Python `int(q)`: truncation toward zero. -/
def py_int (q : Q) : Int :=
  if 0 ≤ q.num then q.floor else -(q.neg.floor)

/-- `round(subtotal * 0.1)` from `_recalculate_checkout`, exactly: the int
is converted to binary64, multiplied by the binary64 nearest to 1/10, the
product rounded to binary64, and the result rounded half-to-even. -/
def py_tax (subtotal : Int) : Int :=
  roundHalfEven (fl64 ((fl64 (Q.ofInt subtotal)).mul (fl64 ⟨1, 10⟩)))

/-- `int((service.price or 0) * 100)` from `_get_line_item`, exactly: the
float price (0 when `None` or 0.0) times binary64 100, truncated. -/
def price_to_cents (price : Option Q) : Int :=
  py_int (fl64 ((fl64 (price.getD (Q.ofInt 0))).mul (Q.ofInt 100)))

/-- Sliced `ucp_sdk` `ItemResponse`: the fields `store.py` reads or writes. -/
structure Item where
  id : String
  price : Int
  title : String
deriving Repr, DecidableEq

/-- `ucp_sdk` `TotalResponse` (sliced). -/
structure TotalResponse where
  type : String
  display_text : String
  amount : Int
deriving Repr, DecidableEq

/-- Sliced `ucp_sdk` `LineItemResponse`. -/
structure LineItem where
  id : String
  item : Item
  quantity : Int
  totals : List TotalResponse
deriving Repr, DecidableEq

/-- Sliced `RetailLocationResponse` (only `id` and `name` are used). -/
structure RetailLocation where
  id : String
  name : String
deriving Repr, DecidableEq

/-- `AppointmentOptionResponse` from `appointment_types.py`. -/
structure AppointmentOption where
  id : String
  start_time : Int
  end_time : Option Int := none
  staff_id : Option String := none
  duration_minutes : Option Int := none
deriving Repr, DecidableEq

/-- `AppointmentSlotResponse` from `appointment_types.py`. -/
structure AppointmentSlot where
  id : String
  line_item_ids : List String
  location : RetailLocation
  options : Option (List AppointmentOption) := none
  selected_option_id : Option String := none
  notes : Option String := none
deriving Repr, DecidableEq

/-- `AppointmentResponse` from `appointment_types.py`. -/
structure Appointment where
  slots : Option (List AppointmentSlot) := none
deriving Repr, DecidableEq

/-- `OrderConfirmation` as constructed in `place_order` (id and permalink). -/
structure OrderConfirmation where
  id : String
  permalink_url : String
deriving Repr, DecidableEq

/-- Sliced `AppointmentCheckoutResponse`: the checkout state `store.py`
manipulates (buyer is reduced to its email, the only field read). -/
structure Checkout where
  id : String
  line_items : List LineItem
  currency : String
  totals : List TotalResponse
  status : String
  buyer : Option String := none
  appointment : Option Appointment := none
  order : Option OrderConfirmation := none
  continue_url : Option String := none
deriving Repr, DecidableEq

/-- `ServiceVariation` from `appointment_types.py` (sliced; `price` is the
exact rational value of the stored Python float, `none` when price varies). -/
structure ServiceVariation where
  id : String
  service_id : String
  name : String
  display_price : String
  price : Option Q := none
  duration_seconds : Int
deriving Repr, DecidableEq

/-- `AppointmentSlotRequest` from `appointment_types.py`. -/
structure SlotRequest where
  id : Option String := none
  line_item_ids : List String
  location_id : String
  staff_id : Option String := none
  start_time : Int
  notes : Option String := none
deriving Repr, DecidableEq

/-- `AppointmentRequest` from `appointment_types.py`. -/
structure AppointmentRequest where
  slots : Option (List SlotRequest) := none
deriving Repr, DecidableEq

/-- Arguments of `SquareServiceClient.create_booking` as passed by
`place_order`. -/
structure BookingArgs where
  location_id : String
  start_time : Int
  service_variation_id : String
  customer_first_name : Option String
  customer_last_name : Option String
  customer_email : Option String
  customer_phone : Option String
  customer_notes : Option String
  staff_id : Option String
deriving Repr, DecidableEq

/-- The slice of `Location` that `store.py` reads after `get_location`. -/
structure SqLocation where
  id : String
  name : String
deriving Repr, DecidableEq

/-- Oracle for the external Square client: each field is one remote call;
`none` models the call raising an exception (network/remote failure or
NotFound). -/
structure SquareClient where
  get_location : String → Option SqLocation
  get_service_variation : String → Option ServiceVariation
  create_booking : BookingArgs → Option String
deriving Inhabited

/-- Environment of a `ServiceStore`: the optional Square client plus the
service cache (reads only; the write-back on a deterministic oracle does not
change any result, so the cache is a fixed map here). -/
structure Env where
  square : Option SquareClient := none
  service_cache : String → Option ServiceVariation := fun _ => none

/-- The two dictionaries owned by `ServiceStore`: active checkouts and
completed orders. -/
structure Store where
  checkouts : List (String × Checkout) := []
  orders : List (String × Checkout) := []
deriving Repr, DecidableEq

/-- Python `dict` write: replace in place when the key exists, append
otherwise. -/
def dict_set (d : List (String × α)) (k : String) (v : α) :
    List (String × α) :=
  if d.any (fun p => p.1 == k) then
    d.map (fun p => if p.1 == k then (k, v) else p)
  else d ++ [(k, v)]

/-- Python `dict` read (`dict.get`). -/
def dict_get? (d : List (String × α)) (k : String) : Option α :=
  (d.find? (fun p => p.1 == k)).map (fun p => p.2)

/-- Python `del d[k]`. -/
def dict_erase (d : List (String × α)) (k : String) : List (String × α) :=
  d.filter (fun p => p.1 != k)

/-- Deterministic stand-in for `uuid4().hex` / `str(uuid4())`: the n-th
generated identifier. -/
def gen_id (n : Nat) : String := "uuid-" ++ toString n

/-! ### Pricing and totals (`_recalculate_checkout`) -/

/-- Per-line-item totals written by `_recalculate_checkout` (discount is the
fixed no-op 0). -/
def line_item_totals (li : LineItem) : List TotalResponse :=
  let base_amount := li.item.price * li.quantity
  let discount : Int := 0
  [ { type := "items_discount", display_text := "Items Discount",
      amount := discount },
    { type := "subtotal", display_text := "Subtotal",
      amount := base_amount - discount },
    { type := "total", display_text := "Total",
      amount := base_amount - discount } ]

/-- Sum of `unit_price * quantity` over the line items, as accumulated by
`_recalculate_checkout`. -/
def items_base_amount (lis : List LineItem) : Int :=
  (lis.map (fun li => li.item.price * li.quantity)).sum

/-- The session-level totals list written by `_recalculate_checkout`. -/
def session_totals (lis : List LineItem) : List TotalResponse :=
  let base := items_base_amount lis
  let items_discount : Int := 0
  let subtotal := base - items_discount
  let tax := py_tax subtotal
  [ { type := "items_discount", display_text := "Items Discount",
      amount := items_discount },
    { type := "subtotal", display_text := "Subtotal",
      amount := base - items_discount },
    { type := "discount", display_text := "Discount", amount := 0 },
    { type := "tax", display_text := "Tax", amount := tax },
    { type := "total", display_text := "Total", amount := subtotal + tax } ]

/-- `ServiceStore._recalculate_checkout`: resets status to `incomplete`,
rewrites every line item's totals and the session totals, and sets the
continue URL. -/
def recalculate_checkout (c : Checkout) : Checkout :=
  { c with
    status := "incomplete"
    line_items := c.line_items.map (fun li =>
      { li with totals := line_item_totals li })
    totals := session_totals c.line_items
    continue_url := some ("https://example.com/checkout?id=" ++ c.id) }


/-! ### Slot management -/

/-- The slot list of a checkout read through Python truthiness (`None`
appointment or `None` slots read as the empty list). -/
def slots_of (c : Checkout) : List AppointmentSlot :=
  match c.appointment with
  | none => []
  | some a => a.slots.getD []

/-- The two `if not …` guards at the top of `_add_or_update_appointment_slot`
and `set_appointment`: materialize `appointment` and its `slots` list. -/
def ensure_appointment (c : Checkout) : Checkout :=
  { c with appointment := some { slots := some (slots_of c) } }

/-- Mutate the first list element satisfying `p` in place (the Python
`for … if …: mutate; break` idiom). -/
def update_first (p : α → Bool) (f : α → α) : List α → List α
  | [] => []
  | x :: xs => if p x then f x :: xs else x :: update_first p f xs

/-- Location enrichment: `get_location` result on success, placeholder with
blank name when the client is missing or the lookup raises. -/
def resolve_location (env : Env) (location_id : String) : RetailLocation :=
  match env.square with
  | some sq =>
    match sq.get_location location_id with
    | some loc => { id := loc.id, name := loc.name }
    | none => { id := location_id, name := "" }
  | none => { id := location_id, name := "" }

/-- `ServiceStore.get_service_variation` wrapped in `try/except` (used where
the source swallows the failure): cache first, then Square. -/
def Env.get_service? (env : Env) (svc_id : String) : Option ServiceVariation :=
  match env.service_cache svc_id with
  | some v => some v
  | none =>
    match env.square with
    | none => none
    | some sq => sq.get_service_variation svc_id

/-- `ServiceStore.get_service_variation`: raising version. -/
def Env.get_service (env : Env) (svc_id : String) :
    Except String ServiceVariation :=
  match env.service_cache svc_id with
  | some v => .ok v
  | none =>
    match env.square with
    | none => .error "Square client not configured"
    | some sq =>
      match sq.get_service_variation svc_id with
      | some v => .ok v
      | none => .error ("Service variation " ++ svc_id ++ " not found")

/-- `ServiceStore._add_or_update_appointment_slot`: update the first slot
containing `line_item_id` in place, or append a fresh slot referencing only
`line_item_id`.  The returned `Nat` is the advanced uuid counter. -/
def add_or_update_appointment_slot (env : Env) (c : Checkout)
    (line_item_id : String) (location_id : String) (staff_id : Option String)
    (start_time : Int) (notes : Option String) (service : ServiceVariation)
    (n : Nat) : Checkout × Nat :=
  let c := ensure_appointment c
  let slots := slots_of c
  let location_resp := resolve_location env location_id
  let duration_minutes := Int.fdiv service.duration_seconds 60
  let end_time := start_time
  let opt : AppointmentOption :=
    { id := gen_id n, start_time := start_time, end_time := some end_time,
      staff_id := staff_id, duration_minutes := some duration_minutes }
  if slots.any (fun s => s.line_item_ids.contains line_item_id) then
    let slots' := update_first (fun s => s.line_item_ids.contains line_item_id)
      (fun s =>
        { s with
          location := location_resp
          options := some [opt]
          selected_option_id := some opt.id
          notes := notes }) slots
    ({ c with appointment := some { slots := some slots' } }, n + 1)
  else
    let slot : AppointmentSlot :=
      { id := gen_id (n + 1), line_item_ids := [line_item_id],
        location := location_resp, options := some [opt],
        selected_option_id := some opt.id, notes := notes }
    ({ c with appointment := some { slots := some (slots ++ [slot]) } }, n + 2)

/-! ### Checkout operations -/

/-- `ServiceStore._get_line_item`. -/
def get_line_item (service : ServiceVariation) (quantity : Int) (n : Nat) :
    LineItem × Nat :=
  ({ id := gen_id n,
     item := { id := service.id, price := price_to_cents service.price,
               title := service.name },
     quantity := quantity, totals := [] }, n + 1)

/-- The fresh checkout built by `add_to_checkout` when no id is supplied
(payment handlers and links are outside the modelled slice). -/
def new_checkout (cid : String) : Checkout :=
  { id := cid, line_items := [], currency := "USD", totals := [],
    status := "incomplete", appointment := some { slots := some [] } }

/-- `ServiceStore.add_to_checkout`.  Returns the updated store, the returned
checkout and the advanced uuid counter; `.error` models the raised
`ValueError`s. -/
def add_to_checkout (env : Env) (st : Store) (service_variation_id : String)
    (quantity : Int) (checkout_id : Option String)
    (location_id : Option String) (staff_id : Option String)
    (start_time : Option Int) (notes : Option String) (n : Nat) :
    Except String (Store × Checkout × Nat) :=
  match env.get_service service_variation_id with
  | .error e => .error e
  | .ok service =>
    let got : Except String (String × Checkout × Nat) :=
      match checkout_id with
      | none => .ok (gen_id n, new_checkout (gen_id n), n + 1)
      | some cid =>
        match dict_get? st.checkouts cid with
        | none => .error ("Checkout with ID " ++ cid ++ " not found")
        | some c => .ok (cid, c, n)
    match got with
    | .error e => .error e
    | .ok (cid, checkout, n1) =>
      let merged :=
        checkout.line_items.find?
          (fun li => li.item.id == service_variation_id)
      let (checkout1, new_li_id, n2) :=
        match merged with
        | some li0 =>
          ({ checkout with
             line_items :=
               update_first (fun li => li.item.id == service_variation_id)
                 (fun li => { li with quantity := li.quantity + quantity })
                 checkout.line_items }, li0.id, n1)
        | none =>
          let (li, n') := get_line_item service quantity n1
          ({ checkout with line_items := checkout.line_items ++ [li] },
           li.id, n')
      let (checkout2, n3) :=
        match location_id, start_time with
        | some loc, some t =>
          add_or_update_appointment_slot env checkout1 new_li_id loc staff_id
            t notes service n2
        | _, _ => (checkout1, n2)
      let checkout3 := recalculate_checkout checkout2
      .ok ({ st with checkouts := dict_set st.checkouts cid checkout3 },
           checkout3, n3)

/-- `ServiceStore.remove_from_checkout`: filter the line item out, drop every
slot whose `line_item_ids` contains it, recalculate. -/
def remove_from_checkout (st : Store) (checkout_id line_item_id : String) :
    Except String (Store × Checkout) :=
  match dict_get? st.checkouts checkout_id with
  | none => .error ("Checkout with ID " ++ checkout_id ++ " not found")
  | some c =>
    let c1 := { c with line_items :=
      c.line_items.filter (fun li => li.id != line_item_id) }
    let c2 :=
      match c1.appointment with
      | none => c1
      | some a =>
        match a.slots with
        | none => c1
        | some slots =>
          if slots.isEmpty then c1
          else
            let kept := slots.filter
              (fun s => !(s.line_item_ids.contains line_item_id))
            { c1 with appointment := some { a with slots := some kept } }
    let c3 := recalculate_checkout c2
    .ok ({ st with checkouts := dict_set st.checkouts checkout_id c3 }, c3)

/-- `ServiceStore.update_checkout`.  The store is returned in every case
because the Python checkout object is aliased by the store dict: the
quantity mutation persists even when the later service lookup raises. -/
def update_checkout (env : Env) (st : Store)
    (checkout_id line_item_id : String) (quantity : Option Int)
    (location_id : Option String) (staff_id : Option String)
    (start_time : Option Int) (notes : Option String) (n : Nat) :
    Store × Nat × Except String Checkout :=
  match dict_get? st.checkouts checkout_id with
  | none =>
    (st, n, .error ("Checkout with ID " ++ checkout_id ++ " not found"))
  | some c =>
    match c.line_items.find? (fun li => li.id == line_item_id) with
    | none => (st, n, .error ("Line item " ++ line_item_id ++ " not found"))
    | some li0 =>
      let c1 :=
        match quantity with
        | some q =>
          let lis := update_first (fun li => li.id == line_item_id)
            (fun li => { li with quantity := q }) c.line_items
          { c with line_items := lis }
        | none => c
      match location_id, start_time with
      | some loc, some t =>
        match env.get_service li0.item.id with
        | .error e =>
          ({ st with checkouts := dict_set st.checkouts checkout_id c1 },
           n, .error e)
        | .ok service =>
          let (c2, n2) := add_or_update_appointment_slot env c1 line_item_id
            loc staff_id t notes service n
          let c3 := recalculate_checkout c2
          ({ st with checkouts := dict_set st.checkouts checkout_id c3 },
           n2, .ok c3)
      | _, _ =>
        let c3 := recalculate_checkout c1
        ({ st with checkouts := dict_set st.checkouts checkout_id c3 },
         n, .ok c3)

/-- One iteration of the `set_appointment` slot-request loop: enrich the
location, derive the duration from the first line item of the checkout that
the request references (fallback 60), build a fresh option, then update the
slot with the request's id in place (replacing its `line_item_ids`
wholesale) or append a new slot. -/
def apply_slot_request (env : Env) (c : Checkout) (req : SlotRequest)
    (n : Nat) : Checkout × Nat :=
  let location_resp := resolve_location env req.location_id
  let duration_minutes : Int :=
    if req.line_item_ids.isEmpty then 60
    else
      match c.line_items.find?
          (fun li => req.line_item_ids.contains li.id) with
      | none => 60
      | some li =>
        match env.get_service? li.item.id with
        | some service => Int.fdiv service.duration_seconds 60
        | none => 60
  let opt : AppointmentOption :=
    { id := gen_id n, start_time := req.start_time, end_time := none,
      staff_id := req.staff_id, duration_minutes := some duration_minutes }
  let slots := slots_of c
  match req.id with
  | some rid =>
    if slots.any (fun s => s.id == rid) then
      let slots' := update_first (fun s => s.id == rid)
        (fun s =>
          { s with
            line_item_ids := req.line_item_ids
            location := location_resp
            options := some [opt]
            selected_option_id := some opt.id
            notes := req.notes }) slots
      ({ c with appointment := some { slots := some slots' } }, n + 1)
    else
      let slot : AppointmentSlot :=
        { id := rid, line_item_ids := req.line_item_ids,
          location := location_resp, options := some [opt],
          selected_option_id := some opt.id, notes := req.notes }
      ({ c with appointment := some { slots := some (slots ++ [slot]) } },
       n + 1)
  | none =>
    let slot : AppointmentSlot :=
      { id := gen_id (n + 1), line_item_ids := req.line_item_ids,
        location := location_resp, options := some [opt],
        selected_option_id := some opt.id, notes := req.notes }
    ({ c with appointment := some { slots := some (slots ++ [slot]) } },
     n + 2)

/-- `ServiceStore.set_appointment`: process the requests in order, then
recalculate and store. -/
def set_appointment (env : Env) (st : Store) (checkout_id : String)
    (appointment : AppointmentRequest) (n : Nat) :
    Except String (Store × Checkout × Nat) :=
  match dict_get? st.checkouts checkout_id with
  | none => .error ("Checkout with ID " ++ checkout_id ++ " not found")
  | some c =>
    let c0 := ensure_appointment c
    let step := fun (acc : Checkout × Nat) (req : SlotRequest) =>
      apply_slot_request env acc.1 req acc.2
    let (c1, n1) := (appointment.slots.getD []).foldl step (c0, n)
    let c2 := recalculate_checkout c1
    .ok ({ st with checkouts := dict_set st.checkouts checkout_id c2 },
         c2, n1)

/-! ### Payment gating and finalization -/

/-- The dual return of `start_payment`: the session on success / no-op, or
the newline-joined deficiency messages. -/
inductive GateResult where
  | session (c : Checkout)
  | deficiencies (msg : String)
deriving Repr, DecidableEq

/-- The `scheduled_items` set of `start_payment`: every line-item id
referenced by some slot. -/
def scheduled_ids (c : Checkout) : List String :=
  List.flatten ((slots_of c).map (fun s => s.line_item_ids))

/-- The deficiency messages accumulated by `start_payment`, in source
order. -/
def deficiency_messages (c : Checkout) : List String :=
  (if c.buyer = none then ["Provide a buyer email address"] else []) ++
  (if (slots_of c).isEmpty then
    (if c.line_items.isEmpty then []
     else ["No appointments scheduled for services"])
   else
    let unscheduled :=
      c.line_items.filter (fun li => !((scheduled_ids c).contains li.id))
    if unscheduled.isEmpty then []
    else ["Some services don\x27t have appointments scheduled"])

/-- `ServiceStore.start_payment`: no-op success when already
`ready_for_complete`; deficiency string when messages accumulate; otherwise
recalculate, mark ready and store. -/
def start_payment (st : Store) (checkout_id : String) :
    Except String (Store × GateResult) :=
  match dict_get? st.checkouts checkout_id with
  | none => .error ("Checkout with ID " ++ checkout_id ++ " not found")
  | some c =>
    if c.status == "ready_for_complete" then .ok (st, .session c)
    else
      let msgs := deficiency_messages c
      if msgs.isEmpty then
        let c1 :=
          { recalculate_checkout c with status := "ready_for_complete" }
        .ok ({ st with checkouts := dict_set st.checkouts checkout_id c1 },
             .session c1)
      else .ok (st, .deficiencies (String.intercalate "\n" msgs))

/-- Resolution of a slot's selected option in `place_order`. -/
def selected_option (slot : AppointmentSlot) : Option AppointmentOption :=
  (slot.options.getD []).find?
    (fun o => slot.selected_option_id == some o.id)

/-- The booking-creation calls `place_order` issues for one slot: one per
referenced line-item id that resolves to a line item, carrying the selected
option; a `none` from the oracle (the call raising) is logged and skipped. -/
def slot_booking_ids (sq : SquareClient) (c : Checkout)
    (customer_email customer_first_name customer_last_name customer_phone :
      Option String) (slot : AppointmentSlot) : List String :=
  slot.line_item_ids.filterMap (fun li_id =>
    match c.line_items.find? (fun li => li.id == li_id) with
    | none => none
    | some li =>
      match selected_option slot with
      | none => none
      | some opt =>
        sq.create_booking
          { location_id := slot.location.id, start_time := opt.start_time,
            service_variation_id := li.item.id,
            customer_first_name := customer_first_name,
            customer_last_name := customer_last_name,
            customer_email := customer_email,
            customer_phone := customer_phone,
            customer_notes := slot.notes, staff_id := opt.staff_id })

/-- `ServiceStore.place_order`.  The returned `List String` is the source's
local `booking_ids` accumulator, exposed so the collected external booking
ids can be specified; the source discards it (only log lines mention the
failures) and the stored order confirmation never records it. -/
def place_order (env : Env) (st : Store) (checkout_id : String)
    (customer_email customer_first_name customer_last_name customer_phone :
      Option String) :
    Except String (Store × Checkout × List String) :=
  match dict_get? st.checkouts checkout_id with
  | none => .error ("Checkout with ID " ++ checkout_id ++ " not found")
  | some c =>
    let booking_ids :=
      match env.square with
      | none => []
      | some sq =>
        if (slots_of c).isEmpty then []
        else
          List.flatten ((slots_of c).map
            (slot_booking_ids sq c customer_email customer_first_name
              customer_last_name customer_phone))
    let order_id := "ORD-" ++ checkout_id
    let conf : OrderConfirmation :=
      { id := order_id,
        permalink_url := "https://example.com/order?id=" ++ order_id }
    let c1 := { c with status := "completed", order := some conf }
    .ok ({ checkouts := dict_erase st.checkouts checkout_id,
           orders := dict_set st.orders order_id c1 }, c1, booking_ids)

/-! ### Specification notions -/

/-- The line-item id sets of a checkout's slots, in slot order. -/
def slot_ids (c : Checkout) : List (List String) :=
  (slots_of c).map (fun s => s.line_item_ids)

/-- The ids of a checkout's line items, in order. -/
def item_ids (c : Checkout) : List String :=
  c.line_items.map (fun li => li.id)

/-- The referential invariant of the spec: every line-item id referenced by
a slot names an existing line item of the session, and no line-item id is
referenced by two different slots. -/
def slot_inv (c : Checkout) : Prop :=
  (∀ ids ∈ slot_ids c, ∀ x ∈ ids, x ∈ item_ids c) ∧
  List.Pairwise (fun a b => ∀ x ∈ a, x ∉ b) (slot_ids c)

/-- The invariant lifted to every active session of the store. -/
def store_inv (st : Store) : Prop :=
  ∀ p ∈ st.checkouts, slot_inv p.2

/-! ### Concrete fixtures for the scenario claims -/

/-- Demo service: 30 minutes, float price 50.0 (5000 minor units). -/
def svcS1 : ServiceVariation :=
  { id := "S1", service_id := "item-S1", name := "Service One",
    display_price := "$50.00", price := some (Q.ofInt 50),
    duration_seconds := 1800 }

/-- Demo service: 60 minutes, float price 30.0 (3000 minor units). -/
def svcS2 : ServiceVariation :=
  { id := "S2", service_id := "item-S2", name := "Service Two",
    display_price := "$30.00", price := some (Q.ofInt 30),
    duration_seconds := 3600 }

/-- Catalog oracle used by the concrete scenarios. -/
def demo_catalog : String → Option ServiceVariation := fun s =>
  if s == "S1" then some svcS1 else if s == "S2" then some svcS2 else none

/-- Environment without a Square client, with the two demo services cached
(the state after two successful catalog searches). -/
def env0 : Env := { square := none, service_cache := demo_catalog }

/-- Environment with a Square client whose booking call is the parameter
`fb`; location lookups raise (placeholder locations), the catalog serves
the demo services. -/
def env_sq (fb : BookingArgs → Option String) : Env :=
  { square := some { get_location := fun _ => none,
                     get_service_variation := demo_catalog,
                     create_booking := fb },
    service_cache := fun _ => none }

/-- Extract the state of a successful operation (scenario runs below are all
successful; the fallback is never reached). -/
def ok_state (r : Except String (Store × Checkout × Nat)) :
    Store × Checkout × Nat :=
  r.toOption.getD (⟨[], []⟩, new_checkout "", 0)

/-- Scenario base: a fresh session with one unit of `S1`, no appointment. -/
def run_add_s1 : Store × Checkout × Nat :=
  ok_state (add_to_checkout env0 ⟨[], []⟩ "S1" 1 none none none none none 0)

/-- Scenario: `S1` then two units of `S2` in the same session. -/
def run_add_s1_s2 : Store × Checkout × Nat :=
  ok_state (add_to_checkout env0 run_add_s1.1 "S2" 2
    (some run_add_s1.2.1.id) none none none none run_add_s1.2.2)

/-- Scenario: `set_appointment` on the base session with a request
referencing a line-item id that does not exist in the session. -/
def run_ghost_slot : Store × Checkout × Nat :=
  ok_state (set_appointment env0 run_add_s1.1 run_add_s1.2.1.id
    { slots := some [{ line_item_ids := ["ghost"], location_id := "L1",
                       start_time := 100 }] } run_add_s1.2.2)

/-- Scenario: one slot covering both line items of `run_add_s1_s2`. -/
def run_joint_slot : Store × Checkout × Nat :=
  ok_state (set_appointment env0 run_add_s1_s2.1 run_add_s1_s2.2.1.id
    { slots := some [{ line_item_ids := ["uuid-1", "uuid-2"],
                       location_id := "L1", start_time := 100 }] }
    run_add_s1_s2.2.2)

/-- Scenario for finalization: `S1` and `S2` each with their own
appointment slot, under the Square environment `env_sq fb`.  The first add
returns the checkout id `uuid-0` and the advanced counter 4 (asserted in
the C3 theorem), which the second call passes back in. -/
def run_two_slots (fb : BookingArgs → Option String) :
    Store × Checkout × Nat :=
  ok_state (add_to_checkout (env_sq fb)
    (ok_state (add_to_checkout (env_sq fb) ⟨[], []⟩ "S1" 1 none
      (some "LA") none (some 100) none 0)).1
    "S2" 1 (some "uuid-0") (some "LB") none (some 200) none 4)

/-- The `create_booking` arguments `place_order` issues for the first slot
of the two-slot scenario (service `S1` at location `LA`). -/
def args_s1 : BookingArgs :=
  { location_id := "LA", start_time := 100, service_variation_id := "S1",
    customer_first_name := none, customer_last_name := none,
    customer_email := some "e@x.com", customer_phone := none,
    customer_notes := none, staff_id := none }

/-- The `create_booking` arguments for the second slot (service `S2` at
location `LB`). -/
def args_s2 : BookingArgs :=
  { location_id := "LB", start_time := 200, service_variation_id := "S2",
    customer_first_name := none, customer_last_name := none,
    customer_email := some "e@x.com", customer_phone := none,
    customer_notes := none, staff_id := none }

/-- Rewrite a line item with its recalculated totals. -/
def with_item_totals (li : LineItem) : LineItem :=
  { li with totals := line_item_totals li }

/-- First line item of the two-slot scenario, before totals are written. -/
def li1_base : LineItem :=
  { id := "uuid-1", item := ⟨"S1", 5000, "Service One"⟩, quantity := 1,
    totals := [] }

/-- Second line item of the two-slot scenario. -/
def li2_base : LineItem :=
  { id := "uuid-4", item := ⟨"S2", 3000, "Service Two"⟩, quantity := 1,
    totals := [] }

/-- The slot covering `uuid-1` in the two-slot scenario. -/
def slot1 : AppointmentSlot :=
  { id := "uuid-3", line_item_ids := ["uuid-1"], location := ⟨"LA", ""⟩,
    options := some [⟨"uuid-2", 100, some 100, none, some 30⟩],
    selected_option_id := some "uuid-2", notes := none }

/-- The slot covering `uuid-4` in the two-slot scenario. -/
def slot2 : AppointmentSlot :=
  { id := "uuid-6", line_item_ids := ["uuid-4"], location := ⟨"LB", ""⟩,
    options := some [⟨"uuid-5", 200, some 200, none, some 60⟩],
    selected_option_id := some "uuid-5", notes := none }

/-- The checkout `place_order` returns for the two-slot scenario — the
same value whatever the booking outcomes: the order confirmation records
only the derived order id and a permalink. -/
def completed_two_slot : Checkout :=
  { id := "uuid-0",
    line_items := [with_item_totals li1_base, with_item_totals li2_base],
    currency := "USD",
    totals := session_totals [li1_base, li2_base],
    status := "completed", buyer := none,
    appointment := some ⟨some [slot1, slot2]⟩,
    order := some ⟨"ORD-uuid-0", "https://example.com/order?id=ORD-uuid-0"⟩,
    continue_url := some "https://example.com/checkout?id=uuid-0" }

/-- Booking oracle that fails the `S1` call and confirms the `S2` call. -/
def fb_one : BookingArgs → Option String := fun a =>
  if a.service_variation_id == "S2" then some "BKG-2" else none

/-- Booking oracle failing every call. -/
def fb_none : BookingArgs → Option String := fun _ => none

/-- Result of removing line item `uuid-1` from the session whose single
slot covers `uuid-1` and `uuid-2`. -/
def run_remove_joint : Store × Checkout :=
  (remove_from_checkout run_joint_slot.1 "uuid-0" "uuid-1").toOption.getD
    (⟨[], []⟩, new_checkout "")

/-- A checkout whose subtotal recomputes to 25 minor units. -/
def c25 : Checkout :=
  { id := "c25",
    line_items := [{ id := "li-25", item := ⟨"svc25", 25, "Tiny"⟩,
                     quantity := 1, totals := [] }],
    currency := "USD", totals := [], status := "incomplete" }

/-- A session that passes the gate: buyer present and its only line item
covered by a slot. -/
def ready_checkout : Checkout :=
  { id := "rc",
    line_items := [{ id := "li1", item := ⟨"S1", 5000, "Service One"⟩,
                     quantity := 1, totals := [] }],
    currency := "USD", totals := [], status := "incomplete",
    buyer := some "e@x.com",
    appointment := some ⟨some [{ id := "sl1",
                                 line_item_ids := ["li1"],
                                 location := ⟨"L1", ""⟩,
                                 options := some [],
                                 selected_option_id := none,
                                 notes := none }]⟩ }

/-- Store holding only `ready_checkout`. -/
def ready_store : Store := ⟨[("rc", ready_checkout)], []⟩

/-- Rounding half-up on an exact rational, the rule the spec states for the
tax ("half-up to nearest minor unit": a fractional part of exactly one half
rounds upward). -/
def roundHalfUp (q : Q) : Int := Q.floor ⟨2 * q.num + q.den, 2 * q.den⟩

/-- The spec's stated tax computation: `round(subtotal × fixed tax rate,
half-up)` with the fixed rate 1/10, on exact rationals. -/
def spec_tax_half_up (subtotal : Int) : Int :=
  roundHalfUp ((Q.ofInt subtotal).mul ⟨1, 10⟩)

/-- "No drift": the checkout's stored totals are exactly the pure
recomputation from its current line items. -/
def drift_free (c : Checkout) : Prop :=
  c.totals = session_totals c.line_items ∧
  ∀ li ∈ c.line_items, li.totals = line_item_totals li

/-! ### Helper lemmas -/

theorem update_first_length (p : α → Bool) (f : α → α) (l : List α) :
    (update_first p f l).length = l.length := by
  induction l with
  | nil => rfl
  | cons a t ih =>
    by_cases h : p a <;> simp [update_first, h, ih]

theorem update_first_map (p : α → Bool) (f : α → α) (g : α → β)
    (hg : ∀ x, p x = true → g (f x) = g x) (l : List α) :
    (update_first p f l).map g = l.map g := by
  induction l with
  | nil => rfl
  | cons a t ih =>
    by_cases h : p a <;> simp [update_first, h, ih, hg]

theorem update_first_sets (p : α → Bool) (f : α → α) (l : List α)
    (h : l.any p = true) :
    ∃ x ∈ l, p x = true ∧ f x ∈ update_first p f l := by
  induction l with
  | nil => simp at h
  | cons a t ih =>
    by_cases hpa : p a
    · exact ⟨a, List.mem_cons_self a t, hpa, by simp [update_first, hpa]⟩
    · simp only [List.any_cons, hpa, Bool.false_or] at h
      obtain ⟨x, hx, hpx, hfx⟩ := ih h
      exact ⟨x, List.mem_cons_of_mem a hx, hpx,
        by simp [update_first, hpa, hfx]⟩

theorem find?_dict_map {d : List (String × α)} {k : String} {v : α}
    (h : d.any (fun p => p.1 == k) = true) :
    (d.map (fun p => if p.1 == k then (k, v) else p)).find?
      (fun p => p.1 == k) = some (k, v) := by
  induction d with
  | nil => simp at h
  | cons a t ih =>
    by_cases hk : (a.1 == k) = true
    · rw [List.map_cons, if_pos hk]
      exact List.find?_cons_of_pos _ (by simp)
    · rw [List.map_cons, if_neg hk,
        @List.find?_cons_of_neg _ (fun p => p.1 == k) a _ hk]
      simp only [List.any_cons, hk, Bool.false_or] at h
      exact ih h

theorem find?_dict_append {d : List (String × α)} {k : String} {v : α}
    (h : d.any (fun p => p.1 == k) = false) :
    (d ++ [(k, v)]).find? (fun p => p.1 == k) = some (k, v) := by
  induction d with
  | nil =>
    rw [List.nil_append]
    exact List.find?_cons_of_pos _ (by simp)
  | cons a t ih =>
    simp only [List.any_cons, Bool.or_eq_false_iff] at h
    rw [List.cons_append,
      @List.find?_cons_of_neg _ (fun p => p.1 == k) a _ (by simp [h.1])]
    exact ih h.2

theorem dict_get?_set_self (d : List (String × α)) (k : String) (v : α) :
    dict_get? (dict_set d k v) k = some v := by
  unfold dict_set
  by_cases h : d.any (fun p => p.1 == k) = true
  · rw [if_pos h]
    unfold dict_get?
    rw [find?_dict_map h]
    rfl
  · rw [if_neg h]
    unfold dict_get?
    rw [find?_dict_append ((Bool.not_eq_true _) ▸ h)]
    rfl

theorem mem_dict_set {d : List (String × α)} {k : String} {v : α}
    {q : String × α} (h : q ∈ dict_set d k v) : q ∈ d ∨ q = (k, v) := by
  unfold dict_set at h
  by_cases ha : d.any (fun p => p.1 == k) = true
  · rw [if_pos ha] at h
    obtain ⟨p, hp, hpq⟩ := List.mem_map.mp h
    by_cases hk : (p.1 == k) = true
    · rw [if_pos hk] at hpq
      exact Or.inr hpq.symm
    · rw [if_neg hk] at hpq
      exact Or.inl (hpq ▸ hp)
  · rw [if_neg ha] at h
    rcases List.mem_append.mp h with h1 | h2
    · exact Or.inl h1
    · exact Or.inr (List.mem_singleton.mp h2)

theorem dict_get?_mem {d : List (String × α)} {k : String} {v : α}
    (h : dict_get? d k = some v) : (k, v) ∈ d := by
  unfold dict_get? at h
  obtain ⟨p, hp, hv⟩ := Option.map_eq_some'.mp h
  obtain ⟨p1, p2⟩ := p
  have hbeq := List.find?_some hp
  have hmem := List.mem_of_find?_eq_some hp
  simp only [beq_iff_eq] at hbeq
  subst hbeq
  cases hv
  exact hmem

/-! ### Invariant preservation machinery -/

theorem slots_of_recalculate (c : Checkout) :
    slots_of (recalculate_checkout c) = slots_of c := rfl

theorem slot_ids_recalculate (c : Checkout) :
    slot_ids (recalculate_checkout c) = slot_ids c := rfl

theorem item_ids_recalculate (c : Checkout) :
    item_ids (recalculate_checkout c) = item_ids c := by
  unfold item_ids recalculate_checkout
  rw [List.map_map]
  rfl

theorem slots_of_ensure (c : Checkout) :
    slots_of (ensure_appointment c) = slots_of c := rfl

theorem slot_inv_of_eq {c c' : Checkout} (hs : slot_ids c' = slot_ids c)
    (hl : item_ids c' = item_ids c) (h : slot_inv c) : slot_inv c' := by
  unfold slot_inv at *
  rw [hs, hl]
  exact h

theorem slot_inv_recalculate {c : Checkout} (h : slot_inv c) :
    slot_inv (recalculate_checkout c) :=
  slot_inv_of_eq (slot_ids_recalculate c) (item_ids_recalculate c) h

theorem slot_inv_item_grow {c c' : Checkout} {l : List String}
    (hs : slot_ids c' = slot_ids c) (hl : item_ids c' = item_ids c ++ l)
    (h : slot_inv c) : slot_inv c' := by
  constructor
  · intro ids hids x hx
    rw [hl]
    rw [hs] at hids
    exact List.mem_append_left l (h.1 ids hids x hx)
  · rw [hs]
    exact h.2

theorem slot_inv_append_slot {c c' : Checkout} {s : AppointmentSlot}
    {li_id : String}
    (hs : slots_of c' = slots_of c ++ [s])
    (hids : s.line_item_ids = [li_id])
    (hl : item_ids c' = item_ids c)
    (hli : li_id ∈ item_ids c)
    (hnone : ((slots_of c).any fun u => u.line_item_ids.contains li_id) =
      false)
    (hinv : slot_inv c) : slot_inv c' := by
  have hsl : slot_ids c' = slot_ids c ++ [[li_id]] := by
    unfold slot_ids
    rw [hs, List.map_append, List.map_singleton, hids]
  constructor
  · intro ids hids' x hx
    rw [hsl] at hids'
    rw [hl]
    rcases List.mem_append.mp hids' with h1 | h2
    · exact hinv.1 ids h1 x hx
    · rw [List.mem_singleton.mp h2] at hx
      rw [List.mem_singleton.mp hx]
      exact hli
  · rw [hsl, List.pairwise_append]
    refine ⟨hinv.2, List.pairwise_singleton _ _, ?_⟩
    intro a ha b hb x hxa
    rw [List.mem_singleton.mp hb, List.mem_singleton]
    obtain ⟨u, humem, hua⟩ := List.mem_map.mp ha
    have hc := List.any_eq_false.mp hnone u humem
    intro hxe
    rw [hxe] at hxa
    rw [← hua] at hxa
    have : li_id ∉ u.line_item_ids := by simpa using hc
    exact this hxa

theorem slot_inv_add_or_update {env : Env} {c : Checkout}
    {li_id loc_id : String} {staff : Option String} {t : Int}
    {notes : Option String} {svc : ServiceVariation} {n : Nat}
    (hinv : slot_inv c) (hli : li_id ∈ item_ids c) :
    slot_inv (add_or_update_appointment_slot env c li_id loc_id staff t
      notes svc n).1 := by
  by_cases hany : ((slots_of c).any
      fun s => s.line_item_ids.contains li_id) = true
  · simp only [add_or_update_appointment_slot, slots_of_ensure, hany,
      if_true]
    refine slot_inv_of_eq ?_ ?_ hinv
    · show (update_first _ _ (slots_of c)).map (fun s => s.line_item_ids) =
        slot_ids c
      refine update_first_map _ _ _ ?_ _
      intro x _
      rfl
    · rfl
  · simp only [add_or_update_appointment_slot, slots_of_ensure, hany,
      if_false, Bool.false_eq_true]
    refine slot_inv_append_slot rfl rfl rfl hli ?_ hinv
    exact (Bool.not_eq_true _) ▸ hany

theorem slot_inv_filtered {c c' : Checkout} {li_id : String}
    (hl : c'.line_items = c.line_items.filter (fun li => li.id != li_id))
    (hs : slots_of c' =
      (slots_of c).filter (fun s => !(s.line_item_ids.contains li_id)))
    (h : slot_inv c) : slot_inv c' := by
  constructor
  · intro ids hids x hx
    unfold slot_ids at hids
    rw [hs] at hids
    obtain ⟨s, hsmem, hsa⟩ := List.mem_map.mp hids
    have hsf := List.mem_filter.mp hsmem
    have hx_old : x ∈ item_ids c := by
      refine h.1 ids ?_ x hx
      exact List.mem_map.mpr ⟨s, hsf.1, hsa⟩
    have hx_ne : x ≠ li_id := by
      intro he
      rw [← hsa] at hx
      rw [he] at hx
      have := hsf.2
      have hni : li_id ∉ s.line_item_ids := by simpa using this
      exact hni hx
    obtain ⟨li, hlimem, hliid⟩ := List.mem_map.mp hx_old
    unfold item_ids
    rw [hl]
    refine List.mem_map.mpr ⟨li, List.mem_filter.mpr ⟨hlimem, ?_⟩, hliid⟩
    rw [hliid]
    simpa using hx_ne
  · unfold slot_ids
    rw [hs]
    exact h.2.sublist ((List.filter_sublist _).map _)

theorem store_inv_dict_set {d : List (String × Checkout)} {k : String}
    {v : Checkout} (h : ∀ p ∈ d, slot_inv p.2) (hv : slot_inv v) :
    ∀ p ∈ dict_set d k v, slot_inv p.2 := by
  intro p hp
  rcases mem_dict_set hp with h1 | h2
  · exact h p h1
  · rw [h2]
    exact hv

theorem slot_inv_new_checkout (cid : String) :
    slot_inv (new_checkout cid) := by
  constructor
  · intro ids hids
    simp [slot_ids, slots_of, new_checkout] at hids
  · simp [slot_ids, slots_of, new_checkout]

theorem item_ids_update_first (l : List LineItem) (p : LineItem → Bool)
    (f : LineItem → LineItem) (hf : ∀ x, (f x).id = x.id) :
    (update_first p f l).map (fun li => li.id) = l.map (fun li => li.id) :=
  update_first_map p f _ (fun x _ => hf x) l


theorem slot_inv_merge {c0 : Checkout} {p : LineItem → Bool} {q : Int}
    (hinv : slot_inv c0) :
    slot_inv
      { c0 with
        line_items :=
          update_first p
            (fun li => { li with quantity := li.quantity + q })
            c0.line_items } := by
  refine slot_inv_of_eq ?_ ?_ hinv
  · rfl
  · show (update_first _ _ c0.line_items).map (fun li => li.id) = item_ids c0
    refine update_first_map _ _ _ ?_ _
    intro x _
    rfl

theorem slot_inv_append_item {c0 : Checkout} {li : LineItem}
    (hinv : slot_inv c0) :
    slot_inv { c0 with line_items := c0.line_items ++ [li] } := by
  refine @slot_inv_item_grow c0 _ [li.id] ?_ ?_ hinv
  · rfl
  · show (c0.line_items ++ [li]).map (fun x => x.id) = _
    rw [List.map_append]
    rfl

theorem store_inv_add_fin {st : Store} {cid : String} {c2 : Checkout}
    {n3 : Nat} {st' : Store} {c' : Checkout} {n' : Nat}
    (hstore : store_inv st) (hc2 : slot_inv c2)
    (hok : (Except.ok
        (⟨dict_set st.checkouts cid (recalculate_checkout c2), st.orders⟩,
          recalculate_checkout c2, n3) :
        Except String (Store × Checkout × Nat)) = .ok (st', c', n')) :
    store_inv st' ∧ slot_inv c' := by
  simp only [Except.ok.injEq, Prod.mk.injEq] at hok
  obtain ⟨h1, h2, h3⟩ := hok
  subst h1
  subst h2
  refine ⟨?_, slot_inv_recalculate hc2⟩
  intro p hp
  exact store_inv_dict_set hstore (slot_inv_recalculate hc2) p hp

theorem item_ids_merge_mem {c0 : Checkout} {p : LineItem → Bool}
    {q : Int} {x : String} (hx : x ∈ item_ids c0) :
    x ∈ item_ids
      { c0 with
        line_items :=
          update_first p
            (fun li => { li with quantity := li.quantity + q })
            c0.line_items } := by
  have heq : (update_first p
      (fun li => { li with quantity := li.quantity + q })
      c0.line_items).map (fun li => li.id) =
      c0.line_items.map (fun li => li.id) := by
    refine update_first_map _ _ _ ?_ _
    intro y _
    rfl
  show x ∈ (update_first _ _ c0.line_items).map (fun li => li.id)
  rw [heq]
  exact hx

theorem item_ids_append_mem {c0 : Checkout} {li : LineItem} :
    li.id ∈ item_ids { c0 with line_items := c0.line_items ++ [li] } := by
  show li.id ∈ (c0.line_items ++ [li]).map (fun x => x.id)
  rw [List.map_append]
  simp

theorem store_inv_add {env : Env} {st : Store} {svc_id : String} {q : Int}
    {cid? : Option String} {loc : Option String} {staff : Option String}
    {t : Option Int} {notes : Option String} {n : Nat}
    {st' : Store} {c' : Checkout} {n' : Nat}
    (hstore : store_inv st)
    (h : add_to_checkout env st svc_id q cid? loc staff t notes n =
      .ok (st', c', n')) :
    store_inv st' ∧ slot_inv c' := by
  unfold add_to_checkout at h
  split at h
  next e he => simp at h
  next service hsv =>
  split at h
  -- fresh checkout (no checkout id supplied)
  next =>
    simp only [new_checkout, List.find?_nil, get_line_item,
      List.nil_append] at h
    have hinv1 := @slot_inv_append_item (new_checkout (gen_id n))
      (get_line_item service q (n + 1)).1 (slot_inv_new_checkout (gen_id n))
    have hli := @item_ids_append_mem (new_checkout (gen_id n))
      (get_line_item service q (n + 1)).1
    cases loc with
    | none => exact store_inv_add_fin hstore hinv1 h
    | some l =>
      cases t with
      | none => exact store_inv_add_fin hstore hinv1 h
      | some tt =>
        exact store_inv_add_fin hstore
          (slot_inv_add_or_update hinv1 hli) h
  -- existing checkout
  next cid =>
    cases hc : dict_get? st.checkouts cid with
    | none => simp [hc] at h
    | some c0 =>
      have hinv0 : slot_inv c0 := hstore (cid, c0) (dict_get?_mem hc)
      simp only [hc, get_line_item] at h
      cases hfind : c0.line_items.find?
          (fun li => li.item.id == svc_id) with
      | some li0 =>
        simp only [hfind] at h
        have hinv1 := @slot_inv_merge c0
          (fun li => li.item.id == svc_id) q hinv0
        have hli := @item_ids_merge_mem c0
          (fun li => li.item.id == svc_id) q li0.id
          (List.mem_map.mpr ⟨li0, List.mem_of_find?_eq_some hfind, rfl⟩)
        cases loc with
        | none => exact store_inv_add_fin hstore hinv1 h
        | some l =>
          cases t with
          | none => exact store_inv_add_fin hstore hinv1 h
          | some tt =>
            exact store_inv_add_fin hstore
              (slot_inv_add_or_update hinv1 hli) h
      | none =>
        simp only [hfind] at h
        have hinv1 := @slot_inv_append_item c0
          (get_line_item service q n).1 hinv0
        have hli := @item_ids_append_mem c0 (get_line_item service q n).1
        cases loc with
        | none => exact store_inv_add_fin hstore hinv1 h
        | some l =>
          cases t with
          | none => exact store_inv_add_fin hstore hinv1 h
          | some tt =>
            exact store_inv_add_fin hstore
              (slot_inv_add_or_update hinv1 hli) h

theorem store_inv_pack {st : Store} {cid : String} {c2 : Checkout}
    (hstore : store_inv st) (hc2 : slot_inv c2) :
    store_inv { st with checkouts := dict_set st.checkouts cid c2 } := by
  intro p hp
  exact store_inv_dict_set hstore hc2 p hp

theorem slot_inv_requantify {c0 : Checkout} {p : LineItem → Bool} {q : Int}
    (hinv : slot_inv c0) :
    slot_inv
      { c0 with
        line_items :=
          update_first p (fun li => { li with quantity := q })
            c0.line_items } := by
  refine slot_inv_of_eq ?_ ?_ hinv
  · rfl
  · show (update_first _ _ c0.line_items).map (fun li => li.id) =
      item_ids c0
    refine update_first_map _ _ _ ?_ _
    intro x _
    rfl

theorem item_ids_requantify_mem {c0 : Checkout} {p : LineItem → Bool}
    {q : Int} {x : String} (hx : x ∈ item_ids c0) :
    x ∈ item_ids
      { c0 with
        line_items :=
          update_first p (fun li => { li with quantity := q })
            c0.line_items } := by
  have heq : (update_first p (fun li => { li with quantity := q })
      c0.line_items).map (fun li => li.id) =
      c0.line_items.map (fun li => li.id) := by
    refine update_first_map _ _ _ ?_ _
    intro y _
    rfl
  show x ∈ (update_first _ _ c0.line_items).map (fun li => li.id)
  rw [heq]
  exact hx

theorem store_inv_update {env : Env} {st : Store} {cid li_id : String}
    {q? : Option Int} {loc : Option String} {staff : Option String}
    {t : Option Int} {notes : Option String} {n : Nat}
    {st' : Store} {n' : Nat} {r : Except String Checkout}
    (hstore : store_inv st)
    (h : update_checkout env st cid li_id q? loc staff t notes n =
      (st', n', r)) :
    store_inv st' ∧ ∀ c'', r = .ok c'' → slot_inv c'' := by
  unfold update_checkout at h
  cases hc : dict_get? st.checkouts cid with
  | none =>
    simp only [hc, Prod.mk.injEq] at h
    obtain ⟨h1, _, h3⟩ := h
    subst h1
    subst h3
    exact ⟨hstore, fun c'' hr => absurd hr (by simp)⟩
  | some c0 =>
    have hinv0 : slot_inv c0 := hstore (cid, c0) (dict_get?_mem hc)
    simp only [hc] at h
    cases hfind : c0.line_items.find? (fun li => li.id == li_id) with
    | none =>
      simp only [hfind, Prod.mk.injEq] at h
      obtain ⟨h1, _, h3⟩ := h
      subst h1
      subst h3
      exact ⟨hstore, fun c'' hr => absurd hr (by simp)⟩
    | some li0 =>
      simp only [hfind] at h
      have hli0 : li_id ∈ item_ids c0 := by
        have hb := List.find?_some hfind
        have hm := List.mem_of_find?_eq_some hfind
        have : li0.id = li_id := by simpa using hb
        exact List.mem_map.mpr ⟨li0, hm, this⟩
      cases q? with
      | none =>
        cases loc with
        | none =>
          simp only [Prod.mk.injEq] at h
          obtain ⟨h1, _, h3⟩ := h
          subst h1
          subst h3
          refine ⟨store_inv_pack hstore (slot_inv_recalculate hinv0), ?_⟩
          intro c'' hr
          injection hr with h4
          subst h4
          exact slot_inv_recalculate hinv0
        | some l =>
          cases t with
          | none =>
            simp only [Prod.mk.injEq] at h
            obtain ⟨h1, _, h3⟩ := h
            subst h1
            subst h3
            refine ⟨store_inv_pack hstore (slot_inv_recalculate hinv0), ?_⟩
            intro c'' hr
            injection hr with h4
            subst h4
            exact slot_inv_recalculate hinv0
          | some tt =>
            cases hsv : env.get_service li0.item.id with
            | error e =>
              simp only [hsv, Prod.mk.injEq] at h
              obtain ⟨h1, _, h3⟩ := h
              subst h1
              subst h3
              exact ⟨store_inv_pack hstore hinv0,
                fun c'' hr => absurd hr (by simp)⟩
            | ok service =>
              simp only [hsv, Prod.mk.injEq] at h
              obtain ⟨h1, _, h3⟩ := h
              subst h1
              subst h3
              constructor
              · exact store_inv_pack hstore (slot_inv_recalculate
                  (slot_inv_add_or_update hinv0 hli0))
              · intro c'' hr
                injection hr with h4
                subst h4
                exact slot_inv_recalculate
                  (slot_inv_add_or_update hinv0 hli0)
      | some qv =>
        have hinv1 := @slot_inv_requantify c0
          (fun li => li.id == li_id) qv hinv0
        have hli1 := @item_ids_requantify_mem c0
          (fun li => li.id == li_id) qv li_id hli0
        cases loc with
        | none =>
          simp only [Prod.mk.injEq] at h
          obtain ⟨h1, _, h3⟩ := h
          subst h1
          subst h3
          refine ⟨store_inv_pack hstore (slot_inv_recalculate hinv1), ?_⟩
          intro c'' hr
          injection hr with h4
          subst h4
          exact slot_inv_recalculate hinv1
        | some l =>
          cases t with
          | none =>
            simp only [Prod.mk.injEq] at h
            obtain ⟨h1, _, h3⟩ := h
            subst h1
            subst h3
            refine ⟨store_inv_pack hstore (slot_inv_recalculate hinv1), ?_⟩
            intro c'' hr
            injection hr with h4
            subst h4
            exact slot_inv_recalculate hinv1
          | some tt =>
            cases hsv : env.get_service li0.item.id with
            | error e =>
              simp only [hsv, Prod.mk.injEq] at h
              obtain ⟨h1, _, h3⟩ := h
              subst h1
              subst h3
              exact ⟨store_inv_pack hstore hinv1,
                fun c'' hr => absurd hr (by simp)⟩
            | ok service =>
              simp only [hsv, Prod.mk.injEq] at h
              obtain ⟨h1, _, h3⟩ := h
              subst h1
              subst h3
              constructor
              · exact store_inv_pack hstore (slot_inv_recalculate
                  (slot_inv_add_or_update hinv1 hli1))
              · intro c'' hr
                injection hr with h4
                subst h4
                exact slot_inv_recalculate
                  (slot_inv_add_or_update hinv1 hli1)

theorem store_inv_remove {st : Store} {cid li_id : String}
    {st' : Store} {c' : Checkout}
    (hstore : store_inv st)
    (h : remove_from_checkout st cid li_id = .ok (st', c')) :
    store_inv st' ∧ slot_inv c' := by
  unfold remove_from_checkout at h
  cases hc : dict_get? st.checkouts cid with
  | none => simp [hc] at h
  | some c0 =>
    have hinv0 : slot_inv c0 := hstore (cid, c0) (dict_get?_mem hc)
    simp only [hc] at h
    cases ha : c0.appointment with
    | none =>
      simp only [ha, Except.ok.injEq, Prod.mk.injEq] at h
      obtain ⟨h1, h2⟩ := h
      subst h1
      subst h2
      constructor
      · refine store_inv_pack hstore (slot_inv_recalculate ?_)
        refine slot_inv_filtered rfl ?_ hinv0
        simp [slots_of, ha]
      · refine slot_inv_recalculate ?_
        refine slot_inv_filtered rfl ?_ hinv0
        simp [slots_of, ha]
    | some a =>
      simp only [ha] at h
      cases hsl : a.slots with
      | none =>
        simp only [hsl, Except.ok.injEq, Prod.mk.injEq] at h
        obtain ⟨h1, h2⟩ := h
        subst h1
        subst h2
        constructor
        · refine store_inv_pack hstore (slot_inv_recalculate ?_)
          refine slot_inv_filtered rfl ?_ hinv0
          simp [slots_of, ha, hsl]
        · refine slot_inv_recalculate ?_
          refine slot_inv_filtered rfl ?_ hinv0
          simp [slots_of, ha, hsl]
      | some slots =>
        simp only [hsl] at h
        by_cases he : slots.isEmpty = true
        · simp only [he, if_true, Except.ok.injEq, Prod.mk.injEq] at h
          obtain ⟨h1, h2⟩ := h
          subst h1
          subst h2
          have hse : slots = [] := List.isEmpty_iff.mp he
          constructor
          · refine store_inv_pack hstore (slot_inv_recalculate ?_)
            refine slot_inv_filtered rfl ?_ hinv0
            simp [slots_of, ha, hsl, hse]
          · refine slot_inv_recalculate ?_
            refine slot_inv_filtered rfl ?_ hinv0
            simp [slots_of, ha, hsl, hse]
        · simp only [he, if_false, Bool.false_eq_true,
            Except.ok.injEq, Prod.mk.injEq] at h
          obtain ⟨h1, h2⟩ := h
          subst h1
          subst h2
          constructor
          · refine store_inv_pack hstore (slot_inv_recalculate ?_)
            refine slot_inv_filtered rfl ?_ hinv0
            simp [slots_of, ha, hsl]
          · refine slot_inv_recalculate ?_
            refine slot_inv_filtered rfl ?_ hinv0
            simp [slots_of, ha, hsl]

theorem except_ok_of_toOption {ε α : Type} {e : Except ε α} {a : α}
    (h : e.toOption = some a) : e = .ok a := by
  cases e with
  | error x => simp [Except.toOption] at h
  | ok x =>
    simp [Except.toOption] at h
    rw [h]

/-! ### Claims -/

/-- C1 (counterexample): the invariant is not preserved by every public
operation.  Starting from the session produced by `add_to_checkout` (its
only line item is `uuid-1`), `set_appointment` with a request referencing
the nonexistent line-item id `ghost` succeeds and stores a slot whose
line-item set is `["ghost"]`, so a slot references an id that is not among
the session's line items. -/
theorem C1_counterexample :
    item_ids run_ghost_slot.2.1 = ["uuid-1"] ∧
    slot_ids run_ghost_slot.2.1 = [["ghost"]] ∧
    ¬ slot_inv run_ghost_slot.2.1 := by
  have h1 : item_ids run_ghost_slot.2.1 = ["uuid-1"] := by decide
  have h2 : slot_ids run_ghost_slot.2.1 = [["ghost"]] := by decide
  refine ⟨h1, h2, fun hinv => ?_⟩
  have hm : ["ghost"] ∈ slot_ids run_ghost_slot.2.1 := by
    rw [h2]
    exact List.mem_singleton_self _
  have h3 := hinv.1 ["ghost"] hm "ghost" (List.mem_singleton_self _)
  rw [h1] at h3
  simp at h3

/-- C1 (amended): the referential invariant — every line-item id referenced
by a slot names a line item of the session, and no id is referenced by two
slots — is preserved, across every session of the store, by
`add_to_checkout`, by `update_checkout` (also on its failing paths, which
may still write back the quantity mutation) and by `remove_from_checkout`;
`set_appointment` is excluded, since it writes the request's line-item ids
unvalidated. -/
theorem C1_invariant_preserved :
    (∀ env st svc_id q cid? loc staff t notes n st' c' n',
      store_inv st →
      add_to_checkout env st svc_id q cid? loc staff t notes n =
        .ok (st', c', n') →
      store_inv st' ∧ slot_inv c') ∧
    (∀ env st cid li_id q? loc staff t notes n st' n' r,
      store_inv st →
      update_checkout env st cid li_id q? loc staff t notes n =
        (st', n', r) →
      store_inv st' ∧ ∀ c'', r = .ok c'' → slot_inv c'') ∧
    (∀ st cid li_id st' c',
      store_inv st →
      remove_from_checkout st cid li_id = .ok (st', c') →
      store_inv st' ∧ slot_inv c') := by
  refine ⟨?_, ?_, ?_⟩
  · intro env st svc_id q cid? loc staff t notes n st' c' n' h1 h2
    exact store_inv_add h1 h2
  · intro env st cid li_id q? loc staff t notes n st' n' r h1 h2
    exact store_inv_update h1 h2
  · intro st cid li_id st' c' h1 h2
    exact store_inv_remove h1 h2

/-- Witness for C1: the preservation theorem applied to the concrete first
add on the empty store. -/
theorem C1_invariant_preserved_witness :
    store_inv run_add_s1.1 ∧ slot_inv run_add_s1.2.1 := by
  have hadd : add_to_checkout env0 ⟨[], []⟩ "S1" 1 none none none none
      none 0 = .ok (run_add_s1.1, run_add_s1.2.1, run_add_s1.2.2) :=
    except_ok_of_toOption (by decide)
  have hempty : store_inv (⟨[], []⟩ : Store) := by
    intro p hp
    simp at hp
  exact C1_invariant_preserved.1 env0 ⟨[], []⟩ "S1" 1 none none none none
    none 0 _ _ _ hempty hadd

/-- C2 (counterexample): in the session whose single slot covers the two
line items `uuid-1` and `uuid-2`, `remove_from_checkout` of `uuid-1`
deletes the whole slot — the slot is not kept with the remaining reference
`uuid-2`, although that line item is still in the session. -/
theorem C2_counterexample :
    slot_ids run_joint_slot.2.1 = [["uuid-1", "uuid-2"]] ∧
    (remove_from_checkout run_joint_slot.1 "uuid-0" "uuid-1").toOption =
      some run_remove_joint ∧
    item_ids run_remove_joint.2 = ["uuid-2"] ∧
    slots_of run_remove_joint.2 = [] := by
  refine ⟨by decide, by decide, by decide, by decide⟩

/-- C2 (amended): `remove_from_checkout` removes the line item and deletes
every slot whose line-item set contains the removed id — also slots that
still reference other line items.  A slot survives exactly when its
line-item set does not contain the removed id (in particular a slot whose
sole member is removed disappears, but so does a two-member slot). -/
theorem C2_remove_drops_whole_slots
    (st st' : Store) (cid li_id : String) (c c' : Checkout)
    (hc : dict_get? st.checkouts cid = some c)
    (h : remove_from_checkout st cid li_id = .ok (st', c')) :
    slots_of c' =
      (slots_of c).filter (fun s => !(s.line_item_ids.contains li_id)) ∧
    c'.line_items = (c.line_items.filter (fun li => li.id != li_id)).map
      (fun li => { li with totals := line_item_totals li }) := by
  unfold remove_from_checkout at h
  rw [hc] at h
  cases ha : c.appointment with
  | none =>
    simp only [ha, Except.ok.injEq, Prod.mk.injEq] at h
    obtain ⟨h1, h2⟩ := h
    subst h1
    subst h2
    exact ⟨by simp [slots_of, recalculate_checkout, ha], rfl⟩
  | some a =>
    simp only [ha] at h
    cases hsl : a.slots with
    | none =>
      simp only [hsl, Except.ok.injEq, Prod.mk.injEq] at h
      obtain ⟨h1, h2⟩ := h
      subst h1
      subst h2
      exact ⟨by simp [slots_of, recalculate_checkout, ha, hsl], rfl⟩
    | some slots =>
      simp only [hsl] at h
      by_cases he : slots.isEmpty = true
      · simp only [he, if_true, Except.ok.injEq, Prod.mk.injEq] at h
        obtain ⟨h1, h2⟩ := h
        subst h1
        subst h2
        have hse : slots = [] := List.isEmpty_iff.mp he
        exact ⟨by simp [slots_of, recalculate_checkout, ha, hsl, hse], rfl⟩
      · simp only [he, if_false, Bool.false_eq_true,
          Except.ok.injEq, Prod.mk.injEq] at h
        obtain ⟨h1, h2⟩ := h
        subst h1
        subst h2
        exact ⟨by simp [slots_of, recalculate_checkout, ha, hsl], rfl⟩

/-- Witness for C2: the amended statement at the two-member-slot session. -/
theorem C2_remove_drops_whole_slots_witness :
    slots_of run_remove_joint.2 =
      (slots_of run_joint_slot.2.1).filter
        (fun s => !(s.line_item_ids.contains "uuid-1")) ∧
    run_remove_joint.2.line_items =
      (run_joint_slot.2.1.line_items.filter
        (fun li => li.id != "uuid-1")).map
        (fun li => { li with totals := line_item_totals li }) := by
  refine C2_remove_drops_whole_slots run_joint_slot.1 run_remove_joint.1
    "uuid-0" "uuid-1" run_joint_slot.2.1 run_remove_joint.2 ?_ ?_
  · decide
  · exact except_ok_of_toOption (by decide)

/-- C3 (counterexample): the returned order carries no booking reference.
Finalizing the two-slot session with a provider confirming only the `S2`
booking collects exactly the one id `BKG-2`, yet the returned checkout —
order confirmation included — is identical to the one returned when every
booking call fails: the collected booking ids are discarded and the order
confirmation records only the derived order id and a permalink. -/
theorem C3_counterexample :
    (place_order (env_sq fb_one) (run_two_slots fb_one).1 "uuid-0"
      (some "e@x.com") none none none).toOption.map (fun r => r.2.2) =
      some ["BKG-2"] ∧
    (place_order (env_sq fb_none) (run_two_slots fb_none).1 "uuid-0"
      (some "e@x.com") none none none).toOption.map (fun r => r.2.2) =
      some [] ∧
    (place_order (env_sq fb_one) (run_two_slots fb_one).1 "uuid-0"
      (some "e@x.com") none none none).toOption.map (fun r => r.2.1) =
      (place_order (env_sq fb_none) (run_two_slots fb_none).1 "uuid-0"
        (some "e@x.com") none none none).toOption.map (fun r => r.2.1) ∧
    (place_order (env_sq fb_one) (run_two_slots fb_one).1 "uuid-0"
      (some "e@x.com") none none none).toOption.map
        (fun r => r.2.1.order) =
      some (some ⟨"ORD-uuid-0",
        "https://example.com/order?id=ORD-uuid-0"⟩) := by
  refine ⟨by decide, by decide, by decide, by decide⟩

/-- C3 (amended): finalize on the two-slot session with a provider whose
`S1` booking call raises and whose `S2` call returns `b` still succeeds:
the session becomes `completed`, is removed from the active-sessions map
and stored in the completed-orders map, and exactly the one booking id `b`
is collected — but the collected ids are then discarded, so the stored
order confirmation carries no booking reference (only the derived order id
and permalink). -/
theorem C3_partial_booking (fb : BookingArgs → Option String) (b : String)
    (h1 : fb args_s1 = none) (h2 : fb args_s2 = some b) :
    place_order (env_sq fb) (run_two_slots fb).1 "uuid-0" (some "e@x.com")
      none none none = .ok
      (⟨[], [("ORD-uuid-0", completed_two_slot)]⟩, completed_two_slot,
        [b]) ∧
    completed_two_slot.status = "completed" ∧
    completed_two_slot.order = some ⟨"ORD-uuid-0",
      "https://example.com/order?id=ORD-uuid-0"⟩ ∧
    dict_get? ([] : List (String × Checkout)) "uuid-0" = none ∧
    dict_get? [("ORD-uuid-0", completed_two_slot)] "ORD-uuid-0" =
      some completed_two_slot ∧
    (run_two_slots fb).2.1.id = "uuid-0" := by
  have key : place_order (env_sq fb) (run_two_slots fb).1 "uuid-0"
      (some "e@x.com") none none none = .ok
      (⟨[], [("ORD-uuid-0", completed_two_slot)]⟩, completed_two_slot,
        (fb args_s1).toList ++ ((fb args_s2).toList ++ [])) := rfl
  rw [h1, h2] at key
  simp only [Option.toList, List.nil_append, List.append_nil] at key
  exact ⟨key, by decide, by decide, by decide, by decide, rfl⟩

/-- Witness for C3: the amended statement at the concrete provider that
fails the `S1` call and confirms the `S2` call with id `BKG-2`. -/
theorem C3_partial_booking_witness :
    place_order (env_sq fb_one) (run_two_slots fb_one).1 "uuid-0"
      (some "e@x.com") none none none = .ok
      (⟨[], [("ORD-uuid-0", completed_two_slot)]⟩, completed_two_slot,
        ["BKG-2"]) := by
  exact (C3_partial_booking fb_one "BKG-2" (by decide) (by decide)).1

/-- C4 (counterexample): `place_order` never checks the session's status.
The freshly created session has status `incomplete` — not
`ready_for_complete` — yet `place_order` succeeds instead of raising a
state error. -/
theorem C4_counterexample :
    (dict_get? run_add_s1.1.checkouts "uuid-0").map (fun c => c.status) =
      some "incomplete" ∧
    (place_order env0 run_add_s1.1 "uuid-0" none none none none).toOption
      ≠ none := by
  refine ⟨by decide, by decide⟩

/-- C4 (amended): `place_order` raises exactly when the session id is not
in the active-sessions map — with the not-found error — and succeeds on
every session it finds, whatever the session's status and whatever the
booking outcomes (it never raises because an individual booking-creation
call failed, and it never raises a state error). -/
theorem C4_error_iff_unknown (env : Env) (st : Store) (cid : String)
    (e f l p : Option String) :
    (dict_get? st.checkouts cid = none →
      place_order env st cid e f l p =
        .error ("Checkout with ID " ++ cid ++ " not found")) ∧
    (∀ c, dict_get? st.checkouts cid = some c →
      ∃ r, place_order env st cid e f l p = .ok r) := by
  constructor
  · intro h
    unfold place_order
    rw [h]
  · intro c h
    unfold place_order
    rw [h]
    exact ⟨_, rfl⟩

/-- Witness for C4: the not-found branch on an unknown id and the success
branch on the concrete incomplete session. -/
theorem C4_error_iff_unknown_witness :
    place_order env0 run_add_s1.1 "nope" none none none none =
      .error ("Checkout with ID " ++ "nope" ++ " not found") ∧
    ∃ r, place_order env0 run_add_s1.1 "uuid-0" none none none none =
      .ok r := by
  constructor
  · exact (C4_error_iff_unknown env0 run_add_s1.1 "nope" none none none
      none).1 (by decide)
  · exact (C4_error_iff_unknown env0 run_add_s1.1 "uuid-0" none none none
      none).2 run_add_s1.2.1 (by decide)

/-- C5 (counterexample): the recomputed tax does not round half-up.  On a
session with subtotal 25 the float product `25 * 0.1` is exactly 2.5 and
Python `round` takes the tie to the even neighbour: the stored tax is 2,
while the spec's half-up rule yields 3. -/
theorem C5_counterexample :
    ((recalculate_checkout c25).totals.find?
      (fun x => x.type == "tax")).map (fun x => x.amount) = some 2 ∧
    spec_tax_half_up 25 = 3 := by
  refine ⟨by decide, by decide⟩

/-- C5 (amended): the recomputed session tax is Python `round` — banker's
rounding, ties to the even neighbour — of the binary64 product
`subtotal * 0.1` (`py_tax`), not half-up: a tie rounds down for subtotal
25 and up for subtotal 35.  The total does equal subtotal plus tax. -/
theorem C5_tax_half_even (c : Checkout) :
    ((recalculate_checkout c).totals.find?
      (fun x => x.type == "tax")).map (fun x => x.amount) =
      some (py_tax (items_base_amount c.line_items)) ∧
    ((recalculate_checkout c).totals.find?
      (fun x => x.type == "total")).map (fun x => x.amount) =
      some (items_base_amount c.line_items +
        py_tax (items_base_amount c.line_items)) ∧
    py_tax 25 = 2 ∧ py_tax 35 = 4 ∧
    spec_tax_half_up 25 = 3 ∧ spec_tax_half_up 35 = 4 := by
  refine ⟨?_, ?_, by decide, by decide, by decide, by decide⟩
  · have hf : (recalculate_checkout c).totals.find?
        (fun x => x.type == "tax") = some ⟨"tax", "Tax",
          py_tax (items_base_amount c.line_items - 0)⟩ := rfl
    rw [hf]
    simp
  · have hf : (recalculate_checkout c).totals.find?
        (fun x => x.type == "total") = some ⟨"total", "Total",
          (items_base_amount c.line_items - 0) +
            py_tax (items_base_amount c.line_items - 0)⟩ := rfl
    rw [hf]
    simp

theorem deficiency_messages_eq_nil (c : Checkout) :
    deficiency_messages c = [] ↔
      (c.buyer ≠ none ∧ ∀ li ∈ c.line_items, li.id ∈ scheduled_ids c) := by
  unfold deficiency_messages
  by_cases hb : c.buyer = none
  · simp [hb]
  · rw [if_neg hb, List.nil_append]
    by_cases hs : (slots_of c).isEmpty = true
    · rw [if_pos hs]
      have hsl : slots_of c = [] := List.isEmpty_iff.mp hs
      by_cases hl : c.line_items.isEmpty = true
      · rw [if_pos hl]
        have hle : c.line_items = [] := List.isEmpty_iff.mp hl
        simp [hb, hle]
      · rw [if_neg hl]
        have hne : c.line_items ≠ [] := by
          simpa [List.isEmpty_iff] using hl
        constructor
        · intro hcon
          exact absurd hcon (by simp)
        · rintro ⟨_, hcov⟩
          obtain ⟨li, hli⟩ := List.exists_mem_of_ne_nil _ hne
          have hmem := hcov li hli
          rw [scheduled_ids, hsl] at hmem
          simp at hmem
    · rw [if_neg hs]
      by_cases hu : (c.line_items.filter
          (fun li => !((scheduled_ids c).contains li.id))).isEmpty = true
      · rw [if_pos hu]
        have hemp := List.isEmpty_iff.mp hu
        constructor
        · intro _
          refine ⟨hb, ?_⟩
          intro li hli
          by_cases hmem : li.id ∈ scheduled_ids c
          · exact hmem
          · exfalso
            have : li ∈ c.line_items.filter
                (fun x => !((scheduled_ids c).contains x.id)) := by
              refine List.mem_filter.mpr ⟨hli, ?_⟩
              simpa using hmem
            rw [hemp] at this
            simp at this
        · intro _
          rfl
      · rw [if_neg hu]
        have hne : c.line_items.filter
            (fun li => !((scheduled_ids c).contains li.id)) ≠ [] := by
          simpa [List.isEmpty_iff] using hu
        constructor
        · intro hcon
          exact absurd hcon (by simp)
        · rintro ⟨_, hcov⟩
          obtain ⟨li, hli⟩ := List.exists_mem_of_ne_nil _ hne
          have hm := List.mem_filter.mp hli
          have hcontains := hcov li hm.1
          have hnot := hm.2
          simp at hnot
          exact (hnot hcontains).elim

/-- C6: the payment gate.  Given the session, `start_payment` (i) is a
no-op success returning the session unchanged when its status is already
`ready_for_complete`; otherwise (ii) it returns a deficiency message
instead of the session exactly when some line item is covered by no slot
or no buyer identity is recorded, and (iii) when every line item is
covered and buyer info is present it stores and returns the session with
status `ready_for_complete`. -/
theorem C6_gate (st : Store) (cid : String) (c : Checkout)
    (h : dict_get? st.checkouts cid = some c) :
    (c.status = "ready_for_complete" →
      start_payment st cid = .ok (st, .session c)) ∧
    (c.status ≠ "ready_for_complete" →
      (((∃ li ∈ c.line_items, li.id ∉ scheduled_ids c) ∨ c.buyer = none) ↔
        (∃ msg, start_payment st cid = .ok (st, .deficiencies msg))) ∧
      ((c.buyer ≠ none ∧ ∀ li ∈ c.line_items, li.id ∈ scheduled_ids c) →
        ∃ st' c', start_payment st cid = .ok (st', .session c') ∧
          c'.status = "ready_for_complete" ∧
          dict_get? st'.checkouts cid = some c')) := by
  have heval : start_payment st cid =
      (if c.status == "ready_for_complete" then .ok (st, .session c)
       else if (deficiency_messages c).isEmpty then
         .ok (Store.mk
             (dict_set st.checkouts cid
               { recalculate_checkout c with
                 status := "ready_for_complete" })
             st.orders,
           .session { recalculate_checkout c with
                      status := "ready_for_complete" })
       else .ok (st, .deficiencies
         (String.intercalate "\n" (deficiency_messages c)))) := by
    unfold start_payment
    rw [h]
  constructor
  · intro hst
    rw [heval, if_pos (by simpa using hst)]
  · intro hst
    rw [heval, if_neg (by simpa using hst)]
    constructor
    · constructor
      · intro hdef
        have hne : deficiency_messages c ≠ [] := by
          rw [Ne, deficiency_messages_eq_nil]
          rintro ⟨hbuyer, hcov⟩
          rcases hdef with h1 | h2
          · obtain ⟨li, hli, hnc⟩ := h1
            exact hnc (hcov li hli)
          · exact hbuyer h2
        rw [if_neg (by simpa [List.isEmpty_iff] using hne)]
        exact ⟨_, rfl⟩
      · rintro ⟨msg, hmsg⟩
        by_cases hempty : (deficiency_messages c).isEmpty = true
        · rw [if_pos hempty] at hmsg
          simp at hmsg
        · have hne : deficiency_messages c ≠ [] := by
            simpa [List.isEmpty_iff] using hempty
          have hnc := (not_iff_not.mpr
            (deficiency_messages_eq_nil c)).mp hne
          push_neg at hnc
          by_cases hbz : c.buyer = none
          · exact Or.inr hbz
          · exact Or.inl (hnc hbz)
    · rintro ⟨hbuyer, hcov⟩
      have hnil : deficiency_messages c = [] :=
        (deficiency_messages_eq_nil c).mpr ⟨hbuyer, hcov⟩
      rw [if_pos (by simp [hnil])]
      exact ⟨_, _, rfl, rfl, dict_get?_set_self _ _ _⟩

/-- Witness for C6: the gate succeeds on the concrete covered session with
a buyer, marking it `ready_for_complete`. -/
theorem C6_gate_witness :
    ∃ st' c', start_payment ready_store "rc" = .ok (st', .session c') ∧
      c'.status = "ready_for_complete" ∧
      dict_get? st'.checkouts "rc" = some c' := by
  refine ((C6_gate ready_store "rc" ready_checkout (by decide)).2
    (by decide)).2 ⟨by decide, ?_⟩
  intro li hli
  have hone : ready_checkout.line_items =
      [{ id := "li1", item := ⟨"S1", 5000, "Service One"⟩,
         quantity := 1, totals := [] }] := by decide
  rw [hone] at hli
  rw [List.mem_singleton.mp hli]
  decide

theorem countP_contains_map (l : List AppointmentSlot) (li_id : String) :
    (l.map (fun s => s.line_item_ids)).countP
      (fun ids => ids.contains li_id) =
      l.countP (fun s => s.line_item_ids.contains li_id) := by
  rw [List.countP_map]
  rfl

theorem any_contains_map (l : List AppointmentSlot) (li_id : String) :
    (l.map (fun s => s.line_item_ids)).any
      (fun ids => ids.contains li_id) =
      l.any (fun s => s.line_item_ids.contains li_id) := by
  induction l with
  | nil => rfl
  | cons a t ih => simp only [List.map_cons, List.any_cons, ih]

/-- C7: attach-or-update is idempotent.  When at most one slot covers the
line item, two calls with identical arguments leave exactly one slot
covering it; the second call changes no slot's identity or membership and
adds no slot (the slot count and every slot's `(id, line_item_ids)` pair
are unchanged between the first and the second call). -/
theorem C7_attach_idempotent (env : Env) (c : Checkout)
    (li_id loc_id : String) (staff : Option String) (t : Int)
    (notes : Option String) (svc : ServiceVariation) (n : Nat)
    (h : (slots_of c).countP
      (fun s => s.line_item_ids.contains li_id) ≤ 1) :
    let r1 := add_or_update_appointment_slot env c li_id loc_id staff t
      notes svc n
    let r2 := add_or_update_appointment_slot env r1.1 li_id loc_id staff t
      notes svc r1.2
    ((slots_of r2.1).map (fun s => (s.id, s.line_item_ids)) =
      (slots_of r1.1).map (fun s => (s.id, s.line_item_ids))) ∧
    (slots_of r2.1).countP
      (fun s => s.line_item_ids.contains li_id) = 1 ∧
    (slots_of r2.1).length = (slots_of r1.1).length := by
  intro r1 r2
  have hfst : (slots_of r1.1).countP
        (fun s => s.line_item_ids.contains li_id) = 1 ∧
      (slots_of r1.1).any
        (fun s => s.line_item_ids.contains li_id) = true := by
    by_cases hany : ((slots_of c).any
        (fun s => s.line_item_ids.contains li_id)) = true
    · have e1 : (slots_of r1.1).map (fun s => s.line_item_ids) =
          (slots_of c).map (fun s => s.line_item_ids) := by
        show (slots_of (add_or_update_appointment_slot env c li_id loc_id
          staff t notes svc n).1).map (fun s => s.line_item_ids) = _
        simp only [add_or_update_appointment_slot, slots_of_ensure, hany,
          if_true]
        show (update_first _ _ (slots_of c)).map
          (fun s => s.line_item_ids) = _
        refine update_first_map _ _ _ ?_ _
        intro x _
        rfl
      have hpos : 0 < (slots_of c).countP
          (fun s => s.line_item_ids.contains li_id) :=
        List.countP_pos_iff.mpr (by simpa [List.any_eq_true] using hany)
      constructor
      · rw [← countP_contains_map, e1, countP_contains_map]
        omega
      · rw [← any_contains_map, e1, any_contains_map]
        exact hany
    · have hfalse := (Bool.not_eq_true ((slots_of c).any
        (fun s => s.line_item_ids.contains li_id))) ▸ hany
      have e1 : (slots_of r1.1).map (fun s => s.line_item_ids) =
          (slots_of c).map (fun s => s.line_item_ids) ++ [[li_id]] := by
        show (slots_of (add_or_update_appointment_slot env c li_id loc_id
          staff t notes svc n).1).map (fun s => s.line_item_ids) = _
        simp only [add_or_update_appointment_slot, slots_of_ensure, hany,
          if_false, Bool.false_eq_true]
        show ((slots_of c) ++ _).map
          (fun s : AppointmentSlot => s.line_item_ids) = _
        rw [List.map_append]
        rfl
      have hzero : (slots_of c).countP
          (fun s => s.line_item_ids.contains li_id) = 0 := by
        refine List.countP_eq_zero.mpr ?_
        intro s hs
        exact List.any_eq_false.mp hfalse s hs
      constructor
      · rw [← countP_contains_map, e1, List.countP_append,
          countP_contains_map, hzero]
        simp
      · rw [← any_contains_map, e1, List.any_append]
        simp
  have e2 : (slots_of r2.1).map (fun s => (s.id, s.line_item_ids)) =
      (slots_of r1.1).map (fun s => (s.id, s.line_item_ids)) := by
    show (slots_of (add_or_update_appointment_slot env r1.1 li_id loc_id
      staff t notes svc r1.2).1).map
      (fun s => (s.id, s.line_item_ids)) = _
    simp only [add_or_update_appointment_slot, slots_of_ensure, hfst.2,
      if_true]
    show (update_first _ _ (slots_of r1.1)).map
      (fun s => (s.id, s.line_item_ids)) = _
    refine update_first_map _ _ _ ?_ _
    intro x _
    rfl
  have e2ids : (slots_of r2.1).map (fun s => s.line_item_ids) =
      (slots_of r1.1).map (fun s => s.line_item_ids) := by
    have h2 := congrArg (List.map Prod.snd) e2
    simp only [List.map_map] at h2
    exact h2
  refine ⟨e2, ?_, ?_⟩
  · rw [← countP_contains_map, e2ids, countP_contains_map]
    exact hfst.1
  · have h3 := congrArg List.length e2
    simpa using h3

/-- Witness for C7: two identical attach calls for line item `x` on a
fresh session leave exactly one slot covering it. -/
theorem C7_attach_idempotent_witness :
    let r1 := add_or_update_appointment_slot env0 (new_checkout "w7") "x"
      "L" none 5 none svcS1 0
    let r2 := add_or_update_appointment_slot env0 r1.1 "x" "L" none 5 none
      svcS1 r1.2
    ((slots_of r2.1).map (fun s => (s.id, s.line_item_ids)) =
      (slots_of r1.1).map (fun s => (s.id, s.line_item_ids))) ∧
    (slots_of r2.1).countP (fun s => s.line_item_ids.contains "x") = 1 ∧
    (slots_of r2.1).length = (slots_of r1.1).length :=
  C7_attach_idempotent env0 (new_checkout "w7") "x" "L" none 5 none svcS1
    0 (by decide)

theorem items_base_amount_map_totals (lis : List LineItem) :
    items_base_amount (lis.map (fun li =>
      { li with totals := line_item_totals li })) =
      items_base_amount lis := by
  simp only [items_base_amount, List.map_map]
  rfl

theorem session_totals_map_totals (lis : List LineItem) :
    session_totals (lis.map (fun li =>
      { li with totals := line_item_totals li })) =
      session_totals lis := by
  simp only [session_totals, items_base_amount_map_totals]

theorem drift_free_recalc (c : Checkout) :
    drift_free (recalculate_checkout c) := by
  refine ⟨?_, ?_⟩
  · show session_totals c.line_items =
      session_totals (c.line_items.map (fun li =>
        { li with totals := line_item_totals li }))
    exact (session_totals_map_totals c.line_items).symm
  · intro li hli
    simp only [recalculate_checkout, List.mem_map] at hli
    obtain ⟨li0, _, rfl⟩ := hli
    rfl

theorem drift_fin_add {st : Store} {cid : String} {c2 : Checkout}
    {n3 : Nat} {st' : Store} {c' : Checkout} {n' : Nat}
    (hok : (Except.ok
        (⟨dict_set st.checkouts cid (recalculate_checkout c2), st.orders⟩,
          recalculate_checkout c2, n3) :
        Except String (Store × Checkout × Nat)) = .ok (st', c', n')) :
    drift_free c' ∧ ∃ k, dict_get? st'.checkouts k = some c' := by
  simp only [Except.ok.injEq, Prod.mk.injEq] at hok
  obtain ⟨h1, h2, h3⟩ := hok
  subst h1
  subst h2
  exact ⟨drift_free_recalc c2, cid, dict_get?_set_self _ _ _⟩

/-- C8: no drift.  Whenever `add_to_checkout`, `update_checkout` or
`remove_from_checkout` succeeds, the returned session's totals are the pure
recomputation from its current line items (per-item totals are unit price
times quantity with zero discount, the session subtotal is their sum) and
that session is the one stored; and in the scenario adding S1 (price 5000,
qty 1) then S2 (price 3000, qty 2) the stored totals are subtotal 11000,
tax = round(11000 x 0.1) = 1100, and total 12100. -/
theorem C8_no_drift :
    (∀ env st svc_id q cid? loc staff t notes n st' c' n',
      add_to_checkout env st svc_id q cid? loc staff t notes n =
        .ok (st', c', n') →
      drift_free c' ∧ ∃ k, dict_get? st'.checkouts k = some c') ∧
    (∀ env st cid li_id q? loc staff t notes n st' n' r,
      update_checkout env st cid li_id q? loc staff t notes n =
        (st', n', r) →
      ∀ c', r = .ok c' →
      drift_free c' ∧ dict_get? st'.checkouts cid = some c') ∧
    (∀ st cid li_id st' c',
      remove_from_checkout st cid li_id = .ok (st', c') →
      drift_free c' ∧ dict_get? st'.checkouts cid = some c') ∧
    (run_add_s1_s2.2.1.totals.find? (fun tr => tr.type == "subtotal") =
      some ⟨"subtotal", "Subtotal", 11000⟩ ∧
     run_add_s1_s2.2.1.totals.find? (fun tr => tr.type == "tax") =
      some ⟨"tax", "Tax", 1100⟩ ∧
     py_tax 11000 = 1100 ∧
     run_add_s1_s2.2.1.totals.find? (fun tr => tr.type == "total") =
      some ⟨"total", "Total", 12100⟩) := by
  refine ⟨?_, ?_, ?_, by decide⟩
  · intro env st svc_id q cid? loc staff t notes n st' c' n' h
    unfold add_to_checkout at h
    split at h
    next e he => simp at h
    next service hsv =>
    split at h
    next =>
      simp only [new_checkout, List.find?_nil, get_line_item,
        List.nil_append] at h
      cases loc with
      | none => exact drift_fin_add h
      | some l =>
        cases t with
        | none => exact drift_fin_add h
        | some tt => exact drift_fin_add h
    next cid =>
      cases hc : dict_get? st.checkouts cid with
      | none => simp [hc] at h
      | some c0 =>
        simp only [hc, get_line_item] at h
        cases hfind : c0.line_items.find?
            (fun li => li.item.id == svc_id) with
        | some li0 =>
          simp only [hfind] at h
          cases loc with
          | none => exact drift_fin_add h
          | some l =>
            cases t with
            | none => exact drift_fin_add h
            | some tt => exact drift_fin_add h
        | none =>
          simp only [hfind] at h
          cases loc with
          | none => exact drift_fin_add h
          | some l =>
            cases t with
            | none => exact drift_fin_add h
            | some tt => exact drift_fin_add h
  · intro env st cid li_id q? loc staff t notes n st' n' r h c' hr
    unfold update_checkout at h
    cases hc : dict_get? st.checkouts cid with
    | none =>
      simp only [hc, Prod.mk.injEq] at h
      obtain ⟨h1, _, h3⟩ := h
      subst h3
      exact absurd hr (by simp)
    | some c0 =>
      simp only [hc] at h
      cases hfind : c0.line_items.find? (fun li => li.id == li_id) with
      | none =>
        simp only [hfind, Prod.mk.injEq] at h
        obtain ⟨h1, _, h3⟩ := h
        subst h3
        exact absurd hr (by simp)
      | some li0 =>
        simp only [hfind] at h
        cases q? with
        | none =>
          cases loc with
          | none =>
            simp only [Prod.mk.injEq] at h
            obtain ⟨h1, _, h3⟩ := h
            subst h1
            subst h3
            injection hr with h4
            subst h4
            exact ⟨drift_free_recalc _, dict_get?_set_self _ _ _⟩
          | some l =>
            cases t with
            | none =>
              simp only [Prod.mk.injEq] at h
              obtain ⟨h1, _, h3⟩ := h
              subst h1
              subst h3
              injection hr with h4
              subst h4
              exact ⟨drift_free_recalc _, dict_get?_set_self _ _ _⟩
            | some tt =>
              cases hsv : env.get_service li0.item.id with
              | error e =>
                simp only [hsv, Prod.mk.injEq] at h
                obtain ⟨h1, _, h3⟩ := h
                subst h3
                exact absurd hr (by simp)
              | ok service =>
                simp only [hsv, Prod.mk.injEq] at h
                obtain ⟨h1, _, h3⟩ := h
                subst h1
                subst h3
                injection hr with h4
                subst h4
                exact ⟨drift_free_recalc _, dict_get?_set_self _ _ _⟩
        | some qv =>
          cases loc with
          | none =>
            simp only [Prod.mk.injEq] at h
            obtain ⟨h1, _, h3⟩ := h
            subst h1
            subst h3
            injection hr with h4
            subst h4
            exact ⟨drift_free_recalc _, dict_get?_set_self _ _ _⟩
          | some l =>
            cases t with
            | none =>
              simp only [Prod.mk.injEq] at h
              obtain ⟨h1, _, h3⟩ := h
              subst h1
              subst h3
              injection hr with h4
              subst h4
              exact ⟨drift_free_recalc _, dict_get?_set_self _ _ _⟩
            | some tt =>
              cases hsv : env.get_service li0.item.id with
              | error e =>
                simp only [hsv, Prod.mk.injEq] at h
                obtain ⟨h1, _, h3⟩ := h
                subst h3
                exact absurd hr (by simp)
              | ok service =>
                simp only [hsv, Prod.mk.injEq] at h
                obtain ⟨h1, _, h3⟩ := h
                subst h1
                subst h3
                injection hr with h4
                subst h4
                exact ⟨drift_free_recalc _, dict_get?_set_self _ _ _⟩
  · intro st cid li_id st' c' h
    unfold remove_from_checkout at h
    cases hc : dict_get? st.checkouts cid with
    | none => simp [hc] at h
    | some c0 =>
      simp only [hc] at h
      cases ha : c0.appointment with
      | none =>
        simp only [ha, Except.ok.injEq, Prod.mk.injEq] at h
        obtain ⟨h1, h2⟩ := h
        subst h1
        subst h2
        exact ⟨drift_free_recalc _, dict_get?_set_self _ _ _⟩
      | some a =>
        simp only [ha] at h
        cases hsl : a.slots with
        | none =>
          simp only [hsl, Except.ok.injEq, Prod.mk.injEq] at h
          obtain ⟨h1, h2⟩ := h
          subst h1
          subst h2
          exact ⟨drift_free_recalc _, dict_get?_set_self _ _ _⟩
        | some slots =>
          simp only [hsl] at h
          by_cases he : slots.isEmpty = true
          · simp only [he, if_true, Except.ok.injEq, Prod.mk.injEq] at h
            obtain ⟨h1, h2⟩ := h
            subst h1
            subst h2
            exact ⟨drift_free_recalc _, dict_get?_set_self _ _ _⟩
          · simp only [he, if_false, Except.ok.injEq, Prod.mk.injEq,
              Bool.false_eq_true] at h
            obtain ⟨h1, h2⟩ := h
            subst h1
            subst h2
            exact ⟨drift_free_recalc _, dict_get?_set_self _ _ _⟩

/-- Witness for C8: the first scenario add stores a drift-free session. -/
theorem C8_no_drift_witness :
    drift_free run_add_s1.2.1 ∧
    ∃ k, dict_get? run_add_s1.1.checkouts k = some run_add_s1.2.1 :=
  C8_no_drift.1 env0 ⟨[], []⟩ "S1" 1 none none none none none 0
    run_add_s1.1 run_add_s1.2.1 run_add_s1.2.2 (by rfl)

/-- C9 counterexample: the base session `uuid-0` exists and contains no
line item named `nope`, yet removing `nope` succeeds instead of failing
with a not-found error (the filter silently removes nothing). -/
theorem C9_counterexample :
    dict_get? run_add_s1.1.checkouts "uuid-0" = some run_add_s1.2.1 ∧
    run_add_s1.2.1.line_items.all (fun li => li.id != "nope") = true ∧
    (remove_from_checkout run_add_s1.1 "uuid-0" "nope").toOption.isSome
      = true := by
  refine ⟨by decide, by decide, by decide⟩

/-- C9 (amended): `remove_from_checkout` fails with the not-found error
exactly when the session id is unknown; when the session exists it always
succeeds, even if no line item carries the given id. -/
theorem C9_remove_not_found (st : Store) (cid li_id : String) :
    (dict_get? st.checkouts cid = none →
      remove_from_checkout st cid li_id =
        .error ("Checkout with ID " ++ cid ++ " not found")) ∧
    (∀ c, dict_get? st.checkouts cid = some c →
      ∃ st' c', remove_from_checkout st cid li_id = .ok (st', c')) := by
  constructor
  · intro hnone
    unfold remove_from_checkout
    rw [hnone]
  · intro c hc
    unfold remove_from_checkout
    rw [hc]
    cases ha : c.appointment with
    | none => exact ⟨_, _, rfl⟩
    | some a =>
      cases hsl : a.slots with
      | none => exact ⟨_, _, rfl⟩
      | some slots =>
        by_cases he : slots.isEmpty = true
        · simp only [he, if_true]
          exact ⟨_, _, rfl⟩
        · simp only [he, if_false, Bool.false_eq_true]
          exact ⟨_, _, rfl⟩

/-- Witness for C9: the error branch on an empty store, and success on the
base session with an absent line-item id. -/
theorem C9_remove_not_found_witness :
    remove_from_checkout ⟨[], []⟩ "z" "x" =
      .error ("Checkout with ID " ++ "z" ++ " not found") ∧
    ∃ st' c', remove_from_checkout run_add_s1.1 "uuid-0" "nope" =
      .ok (st', c') :=
  ⟨(C9_remove_not_found ⟨[], []⟩ "z" "x").1 (by decide),
   (C9_remove_not_found run_add_s1.1 "uuid-0" "nope").2 run_add_s1.2.1
     (by decide)⟩

theorem slots_of_recalc (c : Checkout) :
    slots_of (recalculate_checkout c) = slots_of c := rfl

theorem update_first_exists {p : α → Bool} {f : α → α} {l : List α}
    (h : l.any p = true) :
    ∃ y, p y = true ∧ f y ∈ update_first p f l := by
  induction l with
  | nil => simp at h
  | cons a t ih =>
    by_cases ha : p a = true
    · refine ⟨a, ha, ?_⟩
      simp [update_first, ha]
    · have ht : t.any p = true := by
        rcases List.any_eq_true.mp h with ⟨x, hx, hpx⟩
        cases List.mem_cons.mp hx with
        | inl he => exact absurd (he ▸ hpx) ha
        | inr hm => exact List.any_eq_true.mpr ⟨x, hm, hpx⟩
      obtain ⟨y, hy, hmem⟩ := ih ht
      refine ⟨y, hy, ?_⟩
      simp only [update_first, ha, if_false, Bool.false_eq_true]
      exact List.mem_cons_of_mem _ hmem

theorem add_or_update_has_option (env : Env) (c : Checkout)
    (li_id loc_id : String) (staff : Option String) (t : Int)
    (notes : Option String) (svc : ServiceVariation) (n : Nat) :
    ∃ s ∈ slots_of (add_or_update_appointment_slot env c li_id loc_id
        staff t notes svc n).1, ∃ optid,
      s.options = some [⟨optid, t, some t, staff,
        some (Int.fdiv svc.duration_seconds 60)⟩] ∧
      s.line_item_ids.contains li_id = true := by
  by_cases hany : ((slots_of c).any
      fun s => s.line_item_ids.contains li_id) = true
  · simp only [add_or_update_appointment_slot, slots_of_ensure, hany,
      if_true]
    obtain ⟨y, hy, hmem⟩ := @update_first_exists _
      (fun s => s.line_item_ids.contains li_id)
      (fun s => (⟨s.id, s.line_item_ids, resolve_location env loc_id,
        some [⟨gen_id n, t, some t, staff,
          some (Int.fdiv svc.duration_seconds 60)⟩],
        some (gen_id n), notes⟩ : AppointmentSlot))
      (slots_of c) hany
    refine ⟨⟨y.id, y.line_item_ids, resolve_location env loc_id,
      some [⟨gen_id n, t, some t, staff,
        some (Int.fdiv svc.duration_seconds 60)⟩],
      some (gen_id n), notes⟩, ?_, gen_id n, rfl, hy⟩
    show _ ∈ slots_of _
    simp only [slots_of, Option.getD_some]
    exact hmem
  · simp only [add_or_update_appointment_slot, slots_of_ensure, hany,
      if_false, Bool.false_eq_true]
    refine ⟨⟨gen_id (n + 1), [li_id], resolve_location env loc_id,
      some [⟨gen_id n, t, some t, staff,
        some (Int.fdiv svc.duration_seconds 60)⟩],
      some (gen_id n), notes⟩, ?_, gen_id n, rfl, by simp⟩
    show _ ∈ slots_of _
    simp only [slots_of, Option.getD_some]
    exact List.mem_append_right _ (List.mem_singleton_self _)

theorem add_or_update_has_option_w (env : Env) (c : Checkout)
    (li_id loc_id : String) (staff : Option String) (t : Int)
    (notes : Option String) (svc : ServiceVariation) (n : Nat) :
    ∃ s ∈ slots_of (add_or_update_appointment_slot env c li_id loc_id
        staff t notes svc n).1, ∃ optid,
      s.options = some [⟨optid, t, some t, staff,
        some (Int.fdiv svc.duration_seconds 60)⟩] := by
  obtain ⟨s, hs, optid, hopt, _⟩ := add_or_update_has_option env c li_id
    loc_id staff t notes svc n
  exact ⟨s, hs, optid, hopt⟩

theorem c10_fin_add {env : Env} {st : Store} {cid : String}
    {c0 : Checkout} {li_id loc : String} {staff : Option String} {t : Int}
    {notes : Option String} {svc : ServiceVariation} {n2 : Nat}
    {st' : Store} {c' : Checkout} {n' : Nat}
    (hok : (Except.ok
        (⟨dict_set st.checkouts cid (recalculate_checkout
            (add_or_update_appointment_slot env c0 li_id loc staff t notes
              svc n2).1), st.orders⟩,
          recalculate_checkout (add_or_update_appointment_slot env c0 li_id
            loc staff t notes svc n2).1,
          (add_or_update_appointment_slot env c0 li_id loc staff t notes
            svc n2).2) :
        Except String (Store × Checkout × Nat)) = .ok (st', c', n')) :
    ∃ s ∈ slots_of c', ∃ optid,
      s.options = some [⟨optid, t, some t, staff,
        some (Int.fdiv svc.duration_seconds 60)⟩] := by
  simp only [Except.ok.injEq, Prod.mk.injEq] at hok
  obtain ⟨h1, h2, h3⟩ := hok
  subst h2
  rw [slots_of_recalc]
  exact add_or_update_has_option_w env c0 li_id loc staff t notes svc n2

/-- C10: whenever `add_to_checkout` or `update_checkout` is called with a
location and a start time, the appointment option written to the slot has
`end_time` equal to `start_time` (not `start_time` plus the service
duration), while its `duration_minutes` is the service duration in
minutes. -/
theorem C10_end_time_equals_start :
    (∀ env st svc_id q cid? loc staff t notes n st' c' n',
      add_to_checkout env st svc_id q cid? (some loc) staff (some t) notes
        n = .ok (st', c', n') →
      ∃ service, env.get_service svc_id = .ok service ∧
      ∃ s ∈ slots_of c', ∃ optid,
        s.options = some [⟨optid, t, some t, staff,
          some (Int.fdiv service.duration_seconds 60)⟩]) ∧
    (∀ env st cid li_id q? loc staff t notes n st' n' c',
      update_checkout env st cid li_id q? (some loc) staff (some t) notes
        n = (st', n', .ok c') →
      ∃ svc_id service, env.get_service svc_id = .ok service ∧
      ∃ s ∈ slots_of c', ∃ optid,
        s.options = some [⟨optid, t, some t, staff,
          some (Int.fdiv service.duration_seconds 60)⟩]) := by
  constructor
  · intro env st svc_id q cid? loc staff t notes n st' c' n' h
    unfold add_to_checkout at h
    split at h
    next e he => simp at h
    next service hsv =>
    refine ⟨service, hsv, ?_⟩
    split at h
    next =>
      simp only [new_checkout, List.find?_nil, get_line_item,
        List.nil_append] at h
      exact c10_fin_add h
    next cid =>
      cases hc : dict_get? st.checkouts cid with
      | none => simp [hc] at h
      | some c0 =>
        simp only [hc, get_line_item] at h
        cases hfind : c0.line_items.find?
            (fun li => li.item.id == svc_id) with
        | some li0 =>
          simp only [hfind] at h
          exact c10_fin_add h
        | none =>
          simp only [hfind] at h
          exact c10_fin_add h
  · intro env st cid li_id q? loc staff t notes n st' n' c' h
    unfold update_checkout at h
    cases hc : dict_get? st.checkouts cid with
    | none =>
      simp only [hc, Prod.mk.injEq] at h
      exact absurd h.2.2 (by simp)
    | some c0 =>
      simp only [hc] at h
      cases hfind : c0.line_items.find? (fun li => li.id == li_id) with
      | none =>
        simp only [hfind, Prod.mk.injEq] at h
        exact absurd h.2.2 (by simp)
      | some li0 =>
        simp only [hfind] at h
        cases hsv : env.get_service li0.item.id with
        | error e =>
          simp only [hsv, Prod.mk.injEq] at h
          exact absurd h.2.2 (by simp)
        | ok service =>
          simp only [hsv, Prod.mk.injEq] at h
          obtain ⟨h1, h2, h3⟩ := h
          simp only [Except.ok.injEq] at h3
          subst h3
          refine ⟨li0.item.id, service, hsv, ?_⟩
          rw [slots_of_recalc]
          exact add_or_update_has_option_w env _ li_id loc staff t notes
            service n

/-- Witness for C10: adding S1 with location `LA` and start time 100
writes a slot option with end time 100 and duration 30 minutes. -/
theorem C10_end_time_equals_start_witness :
    ∃ service, env0.get_service "S1" = .ok service ∧
    ∃ s ∈ slots_of (ok_state (add_to_checkout env0 ⟨[], []⟩ "S1" 1 none
        (some "LA") none (some 100) none 0)).2.1, ∃ optid,
      s.options = some [⟨optid, 100, some 100, none,
        some (Int.fdiv service.duration_seconds 60)⟩] :=
  C10_end_time_equals_start.1 env0 ⟨[], []⟩ "S1" 1 none "LA" none 100
    none 0
    (ok_state (add_to_checkout env0 ⟨[], []⟩ "S1" 1 none (some "LA") none
      (some 100) none 0)).1
    (ok_state (add_to_checkout env0 ⟨[], []⟩ "S1" 1 none (some "LA") none
      (some 100) none 0)).2.1
    (ok_state (add_to_checkout env0 ⟨[], []⟩ "S1" 1 none (some "LA") none
      (some 100) none 0)).2.2
    (by rfl)
